import Mathlib

/-!
Shallow embedding of `QConfigList.py` (PySide6 custom widget, v1.0.8).

The repository implements a single class `QConfigList(QWidget)`: a grid of
rows of sub-widgets with add/remove buttons, a periodic `QTimer` poll that
detects content edits, per-row validity styling, and eager constructor
argument validation.

Modelling conventions:

* A `Widget` is identified by `wid` (Python object identity), carries its
  current `content` (the value returned by the caller-supplied
  `content_function`; the default returns the widget's text) and the
  abstract state of its last `setStyleSheet` call.
* `Grid` models the `QGridLayout` as used by the source: `items` is the list
  of layout items in insertion order (`itemAt` indexing; `removeWidget`
  compacts it), `stretch` is the per-row stretch factor (`rowStretch`,
  default 0), and `rowCount` models `QGridLayout.rowCount()`: it is 1 for an
  empty layout, grows to `r+1` when row `r` is touched by `addWidget` or
  `setRowStretch`, and never shrinks.
* Uncaught Python exceptions are modelled by `Except`/`Option` error values;
  `pyGet` reproduces Python list indexing including negative indices and
  `IndexError` (`none`).
* The caller-supplied `validity_function` (possibly wrapped by the
  `no_duplicates` logic of `__init__`, see `noDupValidity`) is passed to the
  operations as an explicit function argument `vf`; it receives the current
  value of the `widgets` property (the source closure reads `self.widgets`)
  and the row being validated.
* Purely visual calls (`adjustSize`, `installEventFilter`, `setSizePolicy`,
  focus handling in `_unselect_row`) have no observable effect on any state
  we model and are omitted.
-/

set_option linter.unusedVariables false

namespace QCfg

/-- The `AddRemoveEditEnum` enum of the source (ADD = 0, REMOVE = 1, EDIT = 2). -/
inductive AddRemoveEditEnum where
  | ADD
  | REMOVE
  | EDIT
deriving DecidableEq

/-- Result of one last `setStyleSheet` call on a grid-layout widget.

`header` is the stylesheet set by `_set_grid_layout_header_stylesheet`;
`unselected v` / `selected v` are the stylesheets set by
`_set_grid_layout_widget_unselected_stylesheet` /
`_set_grid_layout_widget_selected_stylesheet` with `valid = v`.
`unset` means `setStyleSheet` was never called on the widget. -/
inductive StyleState where
  | unset
  | header
  | unselected (valid : Bool)
  | selected (valid : Bool)
deriving DecidableEq

/-- A Qt widget as observed by the source code: its object identity `wid`,
the content returned for it by the content function, and its stylesheet
state. -/
structure Widget where
  wid : Nat
  content : String
  style : StyleState
deriving DecidableEq

/-- A `QLayoutItem` of the grid layout: the widget and the (row, column)
cell it was added at. -/
structure Item where
  w : Widget
  row : Nat
  col : Nat
deriving DecidableEq

/-- Pointwise function update, used for row stretch factors. -/
def updFn (f : Nat → Nat) (r v : Nat) : Nat → Nat :=
  fun x => if x = r then v else f x

/-- Model of the `QGridLayout` owned by the QConfigList. -/
structure Grid where
  items : List Item
  stretch : Nat → Nat
  rowCount : Nat

/-- A fresh `QGridLayout()`: no items, all stretch factors 0, and
`rowCount() == 1` (Qt grid layouts start with a 1x1 internal array). -/
def Grid.empty : Grid :=
  { items := [], stretch := fun _ => 0, rowCount := 1 }

/-- `QGridLayout.addWidget(w, r, c)`: appends the item in insertion order
and extends the internal row array. -/
def Grid.addWidget (g : Grid) (w : Widget) (r c : Nat) : Grid :=
  { items := g.items ++ [⟨w, r, c⟩]
    stretch := g.stretch
    rowCount := max g.rowCount (r + 1) }

/-- `QGridLayout.setRowStretch(r, v)`; also extends the internal row array. -/
def Grid.setRowStretch (g : Grid) (r v : Nat) : Grid :=
  { items := g.items
    stretch := updFn g.stretch r v
    rowCount := max g.rowCount (r + 1) }

/-- `QGridLayout.itemAt(i)` (`none` models a NULL return). -/
def Grid.itemAt (g : Grid) (i : Nat) : Option Item :=
  g.items[i]?

/-- `QGridLayout.itemAtPosition(r, c)` (`none` models a NULL return). -/
def Grid.itemAtPosition (g : Grid) (r c : Nat) : Option Item :=
  g.items.find? (fun it => it.row == r && it.col == c)

/-- `QGridLayout.count()`. -/
def Grid.count (g : Grid) : Nat :=
  g.items.length

/-- `QGridLayout.indexOf(widget)`: index of the widget's item in insertion
order, or -1 when absent (the Python call returns -1). -/
def Grid.indexOf (g : Grid) (wid : Nat) : Int :=
  match g.items.findIdx? (fun it => it.w.wid == wid) with
  | some k => (k : Int)
  | none => -1

/-- `QGridLayout.removeWidget(widget)`: drops the widget's item from the
insertion-order list (later items shift down). -/
def Grid.removeWidget (g : Grid) (wid : Nat) : Grid :=
  { g with items := g.items.eraseP (fun it => it.w.wid == wid) }

/-- In-place `widget.setStyleSheet(...)` for the widget with identity `wid`:
every layout item holding that object observes the new stylesheet. -/
def Grid.setWidgetStyle (g : Grid) (wid : Nat) (s : StyleState) : Grid :=
  { g with items := g.items.map (fun it => if it.w.wid == wid then { it with w := { it.w with style := s } } else it) }

/-- The loop `for column_nbr in range(len(widgets)): addWidget(widgets[column_nbr], row_number, column_nbr)`
of `_add_grid_layout_widgets` (source lines 790-792). -/
def Grid.addRowWidgets (g : Grid) (r : Nat) (ws : List Widget) : Grid :=
  ws.enum.foldl (fun g' cw => g'.addWidget cw.2 r cw.1) g

/-- Python list indexing `l[i]`: negative indices count from the end,
`none` models an `IndexError`. -/
def pyGet {α : Type} (l : List α) (i : Int) : Option α :=
  if 0 ≤ i then l[i.toNat]?
  else if 0 ≤ (l.length : Int) + i then l[((l.length : Int) + i).toNat]? else none

/-- An uncaught Python exception. -/
inductive PyErr where
  | typeError
  | attributeError
  | valueError (msg : String)
deriving DecidableEq

/-- One invocation of the `widget_edited_callback`: the enum value and the
tuple of cell contents passed after it. -/
structure Event where
  action : AddRemoveEditEnum
  args : List String
deriving DecidableEq

/-- The style dictionary (only the entries the source reads). The default
is `QConfigList.default_style` (source lines 1021-1034). -/
structure StyleDict where
  color : String
  backgroundColor : String
  disabledBackgroundColor : String
  hoverBorderColor : String
  invalidColor : String
  selectedBackgroundColor : String
deriving DecidableEq

/-- `QConfigList.default_style`. -/
def defaultStyle : StyleDict :=
  { color := "#FFFFFF"
    backgroundColor := "#000000"
    disabledBackgroundColor := "#333333"
    hoverBorderColor := "#4488BB"
    invalidColor := "#FF0000"
    selectedBackgroundColor := "#6688BB" }

/-- The `QTimer` owned by the widget: `interval` is the argument of
`start`, `active` tracks `start`/`stop`, `connected` records that
`timeout.connect(self._check_modified_widgets)` was called. -/
structure TimerState where
  interval : Nat
  active : Bool
  connected : Bool
deriving DecidableEq

/-- The state of a constructed `QConfigList` (the attributes set by
`__init__`, source lines 317-351, plus the grid layout, the two buttons'
enabled flags and the timer).  `snapshot` is `self._widgets_content`, the
contents recorded by the last poll.  The caller-supplied functions
(`row_widgets` factories and the validity function) are passed to the
operations explicitly rather than stored. -/
structure QCL where
  n : Nat
  headerPresent : Bool
  maxRows : Option Int
  noDuplicates : List Int
  onlyOneEmptyRow : Bool
  onlyOneEmptyCell : Bool
  adjustParent : Bool
  noButtons : Bool
  hasCb : Bool
  style : StyleDict
  grid : Grid
  selectedRow : Int
  snapshot : List (List String)
  addEnabled : Bool
  removeEnabled : Bool
  timer : TimerState

/-- `int(self._header_texts is not None)`. -/
def QCL.headerInt (q : QCL) : Nat :=
  if q.headerPresent then 1 else 0

/-- `int(self._header_texts is not None) + 1`: the grid row of the first
data row; also the `offset` variable of `_check_modified_widgets`. -/
def QCL.off (q : QCL) : Nat :=
  q.headerInt + 1

/-- Number of layout items occupied by the header row
(`self._n if self._header_texts is not None else 0`). -/
def QCL.hdrLen (q : QCL) : Nat :=
  if q.headerPresent then q.n else 0

/-- The `widgets` property (source lines 1036-1054): the rows of the grid,
headers excluded; a grid row is listed when its stretch factor is nonzero,
and each row collects the widgets present at columns `0..n-1`. -/
def QCL.widgets (q : QCL) : List (List Widget) :=
  ((List.range' q.off (q.grid.rowCount - q.off)).filter (fun i => q.grid.stretch i != 0)).map
    (fun i => (List.range q.n).filterMap (fun j => (q.grid.itemAtPosition i j).map (·.w)))

/-- The `widgets_content` property (source lines 1056-1068): the content
function applied to every widget of every row of `widgets`. -/
def QCL.widgetsContent (q : QCL) : List (List String) :=
  q.widgets.map (fun row => row.map (fun widget => widget.content))

/-- Python `range(start, stop, step)` for a positive step. -/
def rangeStep (start stop step : Nat) : List Nat :=
  (List.range ((stop - start + step - 1) / step)).map (fun k => start + k * step)

/-- Whether `re.search(pattern, sheet, re.IGNORECASE)` succeeds, where
`pattern` is `self._valid_grid_layout_pattern`, i.e.
`color\s*:\s*` + invalid-color + `\s*;` (source line 334), and `sheet` is
the stylesheet last produced for the widget.

The generated stylesheets contain `color: X;` fragments as follows:
the header stylesheet has `color: COLOR; border: 1px solid white;`;
the unselected stylesheet has `color: C;` with `C` the normal color when
valid and the invalid color otherwise; the selected stylesheet additionally
has `background-color: SBG;`, whose tail `color: SBG;` is also searched by
the pattern.  Hence, for style colors that are plain CSS color literals
(no regex metacharacters, no semicolons), the search succeeds exactly when
one of those `X` equals the invalid color up to ASCII case. -/
def lowerStr (s : String) : String :=
  ⟨s.data.map Char.toLower⟩

/-- The invalid-pattern match itself, per widget style; `lowerStr` models
the case-insensitivity of `re.IGNORECASE`. -/
def matchesInvalid (sd : StyleDict) : StyleState → Bool
  | .unset => false
  | .header => lowerStr sd.color == lowerStr sd.invalidColor
  | .unselected v =>
      lowerStr (if v then sd.color else sd.invalidColor) == lowerStr sd.invalidColor
  | .selected v =>
      lowerStr (if v then sd.color else sd.invalidColor) == lowerStr sd.invalidColor
        || lowerStr sd.selectedBackgroundColor == lowerStr sd.invalidColor

/-- The `is_valid` property (source lines 1070-1090): scan the first widget
of every non-header row chunk (`range(self._n if header else 0, count, self._n)`
over `itemAt` insertion order) and return `False` as soon as its stylesheet
matches the invalid-color pattern.  For `i < count()`, `itemAt(i)` is never
NULL, so the `none` branch below is unreachable. -/
def QCL.isValid (q : QCL) : Bool :=
  (rangeStep q.hdrLen q.grid.count q.n).all fun i =>
    match q.grid.itemAt i with
    | some it => !(matchesInvalid q.style it.w.style)
    | none => true

/-- `_any_empty_rows` (source lines 546-566): is there a nonzero-stretch
row below the headers all of whose present cells have falsy (empty)
content?  Content truthiness is modelled as string non-emptiness. -/
def QCL.anyEmptyRows (q : QCL) : Bool :=
  (List.range' q.off (q.grid.rowCount - q.off)).any fun i =>
    q.grid.stretch i != 0 &&
      !((List.range q.n).any fun j =>
        match q.grid.itemAtPosition i j with
        | some it => it.w.content != ""
        | none => false)

/-- `_any_empty_cell` (source lines 568-583): is there a nonzero-stretch
row below the headers with a present cell of falsy (empty) content? -/
def QCL.anyEmptyCell (q : QCL) : Bool :=
  (List.range' q.off (q.grid.rowCount - q.off)).any fun i =>
    q.grid.stretch i != 0 &&
      ((List.range q.n).any fun j =>
        match q.grid.itemAtPosition i j with
        | some it => it.w.content == ""
        | none => false)

/-!  The `no_duplicates` wrapper around the validity function
(source lines 268-280).  The wrapped function walks the listed columns in
order; for each it reads `_args[column-1]` and scans `self.widgets`
(`cur` below), returning `False` at the first widget in that column that
is a different object with equal content, and falls back to the original
validity function when no column produces a hit.  `none` models an
uncaught `IndexError` from an out-of-range column number. -/

/-- Inner loop `for row_widgets_ in self.widgets` of the wrapper, for a
fixed column `c` (1-based) and the widget `w = _args[c-1]`: `some true`
means a duplicate was found (the wrapper returns `False`), `some false`
means no row hit, `none` an `IndexError`. -/
def firstDupInRows (c : Int) (w : Widget) : List (List Widget) → Option Bool
  | [] => some false
  | row :: rest =>
    match pyGet row (c - 1) with
    | none => none
    | some w2 =>
      if w.wid ≠ w2.wid ∧ w.content = w2.content then some true
      else firstDupInRows c w rest

/-- Outer loop `for column in self._no_duplicates` of the wrapper. -/
def noDupScan (cur : List (List Widget)) (args : List Widget) : List Int → Option Bool
  | [] => some true
  | c :: cs =>
    match pyGet args (c - 1) with
    | none => none
    | some w =>
      match firstDupInRows c w cur with
      | none => none
      | some true => some false
      | some false => noDupScan cur args cs

/-- The wrapped `validity_function` built by `__init__` when
`no_duplicates` is non-empty: `some false` when some listed column has a
duplicate, otherwise the result of the original validity function
`uvf`; `none` models an uncaught `IndexError`. -/
def noDupValidity (nd : List Int) (uvf : List Widget → Bool) (cur : List (List Widget))
    (args : List Widget) : Option Bool :=
  match noDupScan cur args nd with
  | none => none
  | some false => some false
  | some true => some (uvf args)

/-- Type of the stored `self._validity_function`: it receives the current
`self.widgets` (which the `no_duplicates` closure reads) and the row
widgets passed as `*args`. -/
abbrev Vf : Type :=
  List (List Widget) → List Widget → Bool

/-- `_add_grid_layout_widgets` (source lines 777-812): place the widgets on
a fresh grid row, disable the add button when `max_rows` is reached, set
the new row's stretch factor (0 for headers), and apply the
`only_one_empty_row` / `only_one_empty_cell` add-button policies.
The button states are modelled as the Booleans `addEnabled` /
`removeEnabled`; the source would dereference `None` buttons when
`no_buttons` is set and one of these paths fires, which no claim
exercises. -/
def addGridLayoutWidgets (q : QCL) (ws : List Widget) (noStretch : Bool) : QCL :=
  let rowNumber := q.grid.rowCount
  let q1 : QCL := { q with grid := q.grid.addRowWidgets rowNumber ws }
  let q2 : QCL :=
    match q.maxRows with
    | some m => if (rowNumber : Int) - (q.headerInt : Int) = m then { q1 with addEnabled := false } else q1
    | none => q1
  let q3 : QCL := { q2 with grid := q2.grid.setRowStretch rowNumber (if noStretch then 0 else 1) }
  let q4 : QCL := if q.onlyOneEmptyRow && q3.anyEmptyRows then { q3 with addEnabled := false } else q3
  if q.onlyOneEmptyCell && q4.anyEmptyCell then { q4 with addEnabled := false } else q4

/-- The contents of the widgets at `itemAt` indices `lo..lo+len-1`
(`none` when some item is NULL: the source would raise
`AttributeError`). -/
def gatherContents (g : Grid) (lo len : Nat) : Option (List String) :=
  (List.range len).mapM (fun k => (g.itemAt (lo + k)).map (fun it => it.w.content))

/-- The widgets at `itemAt` indices `i..i+len-1`. -/
def getRowAt (g : Grid) (i len : Nat) : Option (List Widget) :=
  (List.range len).mapM (fun k => (g.itemAt (i + k)).map (·.w))

/-- The contents at grid positions `(i, 0)..(i, n-1)`
(the generator at source lines 760-764 and 616). -/
def rowContentsAt (q : QCL) (i : Nat) : Option (List String) :=
  (List.range q.n).mapM (fun j => (q.grid.itemAtPosition i j).map (fun it => it.w.content))

/-- The `_add_grid_layout_row` callback of the add button (source lines
589-617).  `newWs` stands for the list `[f(self) for f in self._row_widgets]`:
one fresh widget per per-column factory, in column order.  The new widgets
are styled with the row's validity, added to the grid, and the
`widget_edited_callback` is invoked with `ADD` and the contents of the new
row; when no callback was supplied the source calls `None(...)`, an
uncaught `TypeError`. -/
def addGridLayoutRow (q : QCL) (vf : Vf) (newWs : List Widget) : Except PyErr (QCL × List Event) :=
  let v := vf q.widgets newWs
  let styled := newWs.map (fun w => { w with style := StyleState.unselected v })
  let q1 := addGridLayoutWidgets q styled false
  let tmp := q1.grid.count
  match gatherContents q1.grid (tmp - q.n) q.n with
  | none => .error .attributeError
  | some cs =>
    if q.hasCb then .ok (q1, [⟨.ADD, cs⟩]) else .error .typeError

/-- The widget-removal loop of `_remove_grid_layout_selected_row`
(source lines 637-640): `len` times, take `itemAt(i)` and remove its
widget from the layout (later items shift down, so index `i` walks the
whole chunk). -/
def removeLoop (g : Grid) (i : Nat) : Nat → Except PyErr Grid
  | 0 => .ok g
  | len + 1 =>
    match g.itemAt i with
    | none => .error .attributeError
    | some it => removeLoop (g.removeWidget it.w.wid) i len

/-- `_remove_grid_layout_selected_row` (source lines 619-663): return
immediately when no row is selected; otherwise zero the selected row's
stretch factor, invoke the callback with `REMOVE` and the row's contents,
remove the row's `n` widgets, unselect (`_unselect_row`: selected row
becomes -1 and the remove button is disabled), and re-enable the add
button according to the empty-row policies. -/
def removeSelectedRow (q : QCL) : Except PyErr (QCL × List Event) :=
  if q.selectedRow = -1 then .ok (q, [])
  else
    let i := q.n * q.selectedRow.toNat
    match q.grid.itemAt i with
    | none => .error .attributeError
    | some it0 =>
      let g1 := q.grid.setRowStretch it0.row 0
      match gatherContents g1 i q.n with
      | none => .error .attributeError
      | some cs =>
        if !q.hasCb then .error .typeError
        else
          match removeLoop g1 i q.n with
          | .error e => .error e
          | .ok g2 =>
            let q1 : QCL := { q with grid := g2, selectedRow := -1, removeEnabled := false }
            let q2 : QCL :=
              if !q1.onlyOneEmptyRow || !q1.anyEmptyRows then { q1 with addEnabled := true } else q1
            let q3 : QCL :=
              if !q2.onlyOneEmptyCell || !q2.anyEmptyCell then { q2 with addEnabled := true } else q2
            .ok (q3, [⟨.REMOVE, cs⟩])

/-- Restyle the row whose items sit at `itemAt` indices `i..i+n-1` with the
unselected or selected stylesheet, computing its validity first
(the loop bodies of `_widget_clicked`, source lines 678-699). -/
def restyleRow (q : QCL) (vf : Vf) (i : Nat) (sel : Bool) : Except PyErr QCL :=
  match getRowAt q.grid i q.n with
  | none => .error .attributeError
  | some row =>
    let v := vf q.widgets row
    let g2 := row.foldl
      (fun g w => g.setWidgetStyle w.wid (if sel then StyleState.selected v else StyleState.unselected v)) q.grid
    .ok { q with grid := g2 }

/-- Fold `restyleRow ... false` over a list of chunk start indices (the
unselect loop of `_widget_clicked`). -/
def unselectChunks (q : QCL) (vf : Vf) : List Nat → Except PyErr QCL
  | [] => .ok q
  | i :: rest =>
    match restyleRow q vf i false with
    | .error e => .error e
    | .ok q1 => unselectChunks q1 vf rest

/-- `int(index / self._n)` on Python ints: true division then truncation
toward zero. -/
def pyDivTrunc (a : Int) (b : Nat) : Int :=
  Int.tdiv a (b : Int)

/-- `_select_row` (source lines 994-1005). -/
def selectRow (q : QCL) (rowNumber : Int) : QCL :=
  { q with
    selectedRow := rowNumber
    removeEnabled := if q.noButtons then q.removeEnabled else true }

/-- `_widget_clicked` (source lines 665-702): restyle every non-header row
chunk as unselected, then (unless `no_select`) restyle the clicked row as
selected and select it. -/
def widgetClicked (q : QCL) (vf : Vf) (wid : Nat) (noSelect : Bool) : Except PyErr QCL :=
  let index := q.grid.indexOf wid
  match unselectChunks q vf (rangeStep q.hdrLen q.grid.count q.n) with
  | .error e => .error e
  | .ok q1 =>
    if noSelect then .ok q1
    else
      let rowNbr : Int := (q.n : Int) * pyDivTrunc index q.n
      match restyleRow q1 vf rowNbr.toNat true with
      | .error e => .error e
      | .ok q2 => .ok (selectRow q2 (pyDivTrunc rowNbr q.n))

/-- `_widget_interacted` (source lines 704-735): fetch the interacted
widget's whole row, run `_widget_clicked`, re-enable the add button under
the empty-row policies, then restyle the row as selected with its current
validity.  The captured row tuple aliases the live widget objects, so the
final restyle reads the row again from the (restyled) grid. -/
def widgetInteracted (q : QCL) (vf : Vf) (wid : Nat) : Except PyErr QCL :=
  let index := q.grid.indexOf wid
  let tmp := ((q.n : Int) * pyDivTrunc index q.n).toNat
  match getRowAt q.grid tmp q.n with
  | none => .error .attributeError
  | some _row0 =>
    match widgetClicked q vf wid false with
    | .error e => .error e
    | .ok q1 =>
      let q2 : QCL := if q1.onlyOneEmptyRow && !q1.anyEmptyRows then { q1 with addEnabled := true } else q1
      let q3 : QCL := if q2.onlyOneEmptyCell && !q2.anyEmptyCell then { q2 with addEnabled := true } else q2
      match getRowAt q3.grid tmp q3.n with
      | none => .error .attributeError
      | some row3 =>
        let v := vf q3.widgets row3
        let g4 := row3.foldl (fun g w => g.setWidgetStyle w.wid (StyleState.selected v)) q3.grid
        .ok { q3 with grid := g4 }

/-- One inner iteration of `_check_modified_widgets` (source lines 749-767)
for cell `(i, j)`: when the cell is present and its current content
differs from `self._widgets_content[i - offset][j]`, run
`_widget_interacted` and, when a callback was supplied, invoke it with
`EDIT` and the current contents of row `i`.  `IndexError` from either
subscript is caught (`none` branches of `pyGet`). -/
def pollCell (q : QCL) (vf : Vf) (i j : Nat) : Except PyErr (QCL × List Event) :=
  match q.grid.itemAtPosition i j with
  | none => .ok (q, [])
  | some it =>
    match pyGet q.snapshot ((i : Int) - (q.off : Int)) with
    | none => .ok (q, [])
    | some oldRow =>
      match pyGet oldRow (j : Int) with
      | none => .ok (q, [])
      | some old =>
        if it.w.content = old then .ok (q, [])
        else
          match widgetInteracted q vf it.w.wid with
          | .error e => .error e
          | .ok q1 =>
            if q1.hasCb then
              match rowContentsAt q1 i with
              | none => .error .attributeError
              | some cs => .ok (q1, [⟨.EDIT, cs⟩])
            else .ok (q1, [])

/-- The `for j in range(self._n)` loop of `_check_modified_widgets`. -/
def pollCells (vf : Vf) (i : Nat) : QCL → List Nat → Except PyErr (QCL × List Event)
  | q, [] => .ok (q, [])
  | q, j :: rest =>
    match pollCell q vf i j with
    | .error e => .error e
    | .ok (q1, e1) =>
      match pollCells vf i q1 rest with
      | .error e => .error e
      | .ok (q2, e2) => .ok (q2, e1 ++ e2)

/-- One outer iteration of `_check_modified_widgets`: rows with stretch
factor 0 are skipped. -/
def pollRow (q : QCL) (vf : Vf) (i : Nat) : Except PyErr (QCL × List Event) :=
  if q.grid.stretch i != 0 then pollCells vf i q (List.range q.n) else .ok (q, [])

/-- The `while i < self._grid_layout.rowCount()` loop of
`_check_modified_widgets`; no iteration changes `rowCount`, so the
initial range is the traversed one. -/
def pollRows (vf : Vf) : QCL → List Nat → Except PyErr (QCL × List Event)
  | q, [] => .ok (q, [])
  | q, i :: rest =>
    match pollRow q vf i with
    | .error e => .error e
    | .ok (q1, e1) =>
      match pollRows vf q1 rest with
      | .error e => .error e
      | .ok (q2, e2) => .ok (q2, e1 ++ e2)

/-- `_check_modified_widgets` (source lines 737-771), the slot connected to
the poll timer: scan all grid rows for content changes and finally record
the current `widgets_content` in `self._widgets_content`. -/
def checkModifiedWidgets (q : QCL) (vf : Vf) : Except PyErr (QCL × List Event) :=
  match pollRows vf q (List.range q.grid.rowCount) with
  | .error e => .error e
  | .ok (q1, evs) => .ok ({ q1 with snapshot := q1.widgetsContent }, evs)

/-- `closeEvent` (source lines 424-436): stop the poll timer. -/
def closeEvent (q : QCL) : QCL :=
  { q with timer := { q.timer with active := false } }

/-!  The constructor `QConfigList.__init__` (source lines 137-355):
argument defaulting, eager validation, attribute setup, header creation,
timer start and initial row fill. -/

/-- A `row_widgets` entry: a factory producing one cell widget.  Only the
kind and initial text of the produced widget are observable. -/
inductive FactorySpec where
  | label (text : String)
  | lineEdit (text : String)
deriving DecidableEq

/-- The default `row_widgets` (source lines 248-255): one QLabel and
`n - 1` QLineEdits when `n > 1`, else a single QLineEdit. -/
def defaultRowWidgets (nv : Int) : List FactorySpec :=
  if nv > 1 then
    FactorySpec.label (r"Column 1") :: List.replicate (nv - 1).toNat (FactorySpec.lineEdit (r"Column X"))
  else
    [FactorySpec.lineEdit (r"Column")]

/-- The constructor's arguments (`parent`, `f`, `content_function` and
`validity_function` omitted: the first two only configure the Qt parent
window, and the functions are modelled as described in the header). -/
structure InitArgs where
  n : Option Int
  maxRows : Option Int
  noDuplicates : List Int
  headerTexts : Option (List String)
  rowWidgets : Option (List FactorySpec)
  initial : Option (List (List Widget))
  hasCb : Bool
  onlyOneEmptyRow : Bool
  onlyOneEmptyCell : Bool
  adjustParent : Bool
  noButtons : Bool
  noVerif : Bool
  style : Option StyleDict

def msgNegColumns : String :=
  "Invalid number of columns. A QConfigList cannot have a negative number of columns."

def msgZeroColumns : String :=
  "Invalid number of columns. A QConfigList should have at least 1 column."

def msgNegMaxRows : String :=
  "Invalid number of columns. A QConfigList cannot have a negative maximum number of rows."

def msgZeroMaxRows : String :=
  "Invalid number of columns. A QConfigList should have at least 1 row."

def msgHeaderTexts (nv : Int) (got : Nat) : String :=
  "Invalid number of header texts. Expected " ++ toString nv ++ " but got " ++ toString got ++ "."

def msgRowWidgets (nv : Int) (got : Nat) : String :=
  "Invalid number of row widgets. Expected " ++ toString nv ++ " but got " ++ toString got ++ "."

def msgInitialEmpty : String :=
  "Invalid number of initial widgets per row to fill. List is empty."

/-- The source formats the set of observed row lengths into this message;
the rendering of that set is abbreviated here. -/
def msgInitialInconsistent (nv : Int) : String :=
  "Inconsistent number of initial widgets per row to fill. Expected only " ++ toString nv ++ "."

def msgInitialWidth (nv : Int) (got : Nat) : String :=
  "Invalid number of initial widgets per row to fill. Expected " ++ toString nv ++ " but got " ++ toString got ++ "."

def msgTooManyRows (m : Int) (got : Nat) : String :=
  "Invalid number of rows to fill. Maximum is " ++ toString m ++ " but got " ++ toString got ++ "."

/-- `any(len(initial[i]) != len(initial[i-1]) for i in range(len(initial)))`
(source line 303); note `initial[-1]` is the last row, so for `i = 0` the
first row is compared with the last one. -/
def inconsistentRows (initial : List (List Widget)) : Bool :=
  (List.range initial.length).any fun i =>
    ((pyGet initial (i : Int)).map List.length) != ((pyGet initial ((i : Int) - 1)).map List.length)

/-- The validation block of `__init__` (source lines 284-315), run unless
`no_verif`; `some e` is the raised error. -/
def qconfigVerify (a : InitArgs) (nv : Int) (rw : List FactorySpec) : Option PyErr :=
  if a.noVerif then none
  else if nv < 0 then some (.valueError msgNegColumns)
  else if nv = 0 then some (.valueError msgZeroColumns)
  else if (match a.maxRows with | some m => decide (m < 0) | none => false : Bool) then
    some (.valueError msgNegMaxRows)
  else if (match a.maxRows with | some m => decide (m = 0) | none => false : Bool) then
    some (.valueError msgZeroMaxRows)
  else if (match a.headerTexts with | some h => decide ((h.length : Int) ≠ nv) | none => false : Bool) then
    some (.valueError (msgHeaderTexts nv (a.headerTexts.getD []).length))
  else if (rw.length : Int) ≠ nv then some (.valueError (msgRowWidgets nv rw.length))
  else
    match a.initial with
    | none => none
    | some initial =>
      if initial.length = 0 then some (.valueError msgInitialEmpty)
      else if inconsistentRows initial then some (.valueError (msgInitialInconsistent nv))
      else if ((initial.headD []).length : Int) ≠ nv then
        some (.valueError (msgInitialWidth nv (initial.headD []).length))
      else if (match a.maxRows with | some m => decide ((initial.length : Int) > m) | none => false : Bool) then
        some (.valueError (msgTooManyRows (a.maxRows.getD 0) initial.length))
      else none

/-- The QLabel headers built by `_add_grid_layout_headers` (source lines
498-516): label `j` carries header text `j`, styled as a header; labels
are fresh objects, given identities `0..n-1` here. -/
def headerLabels (texts : List String) : List Widget :=
  texts.enum.map (fun jt => ⟨jt.1, jt.2, StyleState.header⟩)

/-- One iteration of the fill loop of `_initial_grid_layout_rows`
(source lines 530-541). -/
def initialFillStep (vf : Vf) (q : QCL) (ws : List Widget) : QCL :=
  let v := vf q.widgets ws
  let styled := ws.map (fun w => { w with style := StyleState.unselected v })
  addGridLayoutWidgets q styled false

/-- `_initial_grid_layout_rows` (source lines 518-544): fill the grid from
`initial` and record `widgets_content` in `self._widgets_content`. -/
def initialGridLayoutRows (q : QCL) (vf : Vf) (initial : Option (List (List Widget))) : QCL :=
  match initial with
  | none => q
  | some rows =>
    let q1 := rows.foldl (initialFillStep vf) q
    { q1 with snapshot := q1.widgetsContent }

/-- `__init__` after `n` and `row_widgets` have been resolved to `nv` and
`rw`: flag defaulting, style defaulting, validation, attribute setup
(source lines 317-340), `_init_ui` (headers; buttons modelled by the two
enabled flags, the remove button starting disabled), the poll timer
(lines 345-351) and the initial fill (line 355). -/
def qconfigInitCore (a : InitArgs) (vf : Vf) (nv : Int) (rw : List FactorySpec) : Except PyErr QCL :=
  let oneRow := if a.onlyOneEmptyRow && a.onlyOneEmptyCell then false else a.onlyOneEmptyRow
  let sd := a.style.getD defaultStyle
  match qconfigVerify a nv rw with
  | some e => .error e
  | none =>
    let base : QCL :=
      { n := nv.toNat
        headerPresent := a.headerTexts.isSome
        maxRows := a.maxRows
        noDuplicates := a.noDuplicates
        onlyOneEmptyRow := oneRow
        onlyOneEmptyCell := a.onlyOneEmptyCell
        adjustParent := a.adjustParent
        noButtons := a.noButtons
        hasCb := a.hasCb
        style := sd
        grid := Grid.empty
        selectedRow := -1
        snapshot := []
        addEnabled := true
        removeEnabled := false
        timer := ⟨100, true, true⟩ }
    let withHdr : QCL :=
      match a.headerTexts with
      | some texts => addGridLayoutWidgets base (headerLabels texts) true
      | none => base
    .ok (initialGridLayoutRows withHdr vf a.initial)

/-- `QConfigList.__init__`.  The `n` defaulting (source lines 243-247)
falls back to the length of `header_texts`, then of `row_widgets`; when
all three are `None`, the `row_widgets` defaulting (lines 248-255)
evaluates `n > 1` with `n = None`, which raises `TypeError` — the
docstring's announced fallback to `n = 2` is not implemented. -/
def qconfigInit (a : InitArgs) (vf : Vf) : Except PyErr QCL :=
  let nEff : Option Int :=
    match a.n with
    | some v => some v
    | none =>
      match a.headerTexts with
      | some h => some (h.length : Int)
      | none =>
        match a.rowWidgets with
        | some rw => some ((rw.length : Int))
        | none => none
  match nEff with
  | none => .error .typeError
  | some nv =>
    match a.rowWidgets with
    | some rw => qconfigInitCore a vf nv rw
    | none => qconfigInitCore a vf nv (defaultRowWidgets nv)

/-!  Well-formedness of a QConfigList grid.

A reachable grid consists of the optional header chunk (placed at grid row
1) followed by one chunk of `n` items per data row, each chunk placed at
its own grid row at columns `0..n-1`, with strictly increasing grid rows,
nonzero stretch exactly at the data rows, and pairwise distinct widget
identities.  `WF q hws rcs` states this with the header widgets `hws`
and the data chunks `rcs` (grid row paired with the row's widgets)
explicit. -/

/-- The layout items of a row of widgets placed at grid row `r`, columns
`c, c+1, ...`. -/
def chunkItemsFrom (r c : Nat) : List Widget → List Item
  | [] => []
  | w :: ws => ⟨w, r, c⟩ :: chunkItemsFrom r (c + 1) ws

/-- The layout items of a row of widgets placed at grid row `r`. -/
def chunkItems (r : Nat) (ws : List Widget) : List Item :=
  chunkItemsFrom r 0 ws

/-- The layout items of the data chunks `rcs` (grid row, row widgets), in
insertion order. -/
def dataItems : List (Nat × List Widget) → List Item
  | [] => []
  | p :: rest => chunkItems p.1 p.2 ++ dataItems rest

/-- Well-formedness of a QConfigList state, with the header widgets and
data chunks explicit. -/
def WF (q : QCL) (hws : List Widget) (rcs : List (Nat × List Widget)) : Prop :=
  q.grid.items = chunkItems 1 hws ++ dataItems rcs ∧
  hws.length = q.hdrLen ∧
  (∀ p ∈ rcs, p.2.length = q.n ∧ q.off ≤ p.1 ∧ p.1 < q.grid.rowCount) ∧
  List.Pairwise (· < ·) (rcs.map Prod.fst) ∧
  (∀ r, r < q.grid.rowCount → (q.grid.stretch r ≠ 0 ↔ r ∈ rcs.map Prod.fst)) ∧
  (q.grid.items.map (fun it => it.w.wid)).Nodup ∧
  1 ≤ q.n ∧
  q.off ≤ q.grid.rowCount ∧
  (q.selectedRow = -1 ∨
    ((q.headerInt : Int) ≤ q.selectedRow ∧ q.selectedRow < (q.headerInt : Int) + (rcs.length : Int)))

/-- The validity flag recorded by the widget's last row stylesheet, if
any. -/
def styleFlag : StyleState → Option Bool
  | .unselected v => some v
  | .selected v => some v
  | _ => none

/-- Whether the poll's comparison fires for cell `(i, j)`: the cell is
present and its content differs from
`self._widgets_content[i - offset][j]` (both subscripts in range). -/
def cellFires (q : QCL) (i j : Nat) : Bool :=
  match q.grid.itemAtPosition i j with
  | none => false
  | some it =>
    match pyGet q.snapshot ((i : Int) - (q.off : Int)) with
    | none => false
    | some oldRow =>
      match pyGet oldRow (j : Int) with
      | none => false
      | some old => it.w.content != old

/-- The callback invocations `_check_modified_widgets` produces for cell
`(i, j)`, computed over the pre-poll state (restyling and selection do not
change any content). -/
def pureCellEvents (q : QCL) (i j : Nat) : List Event :=
  if cellFires q i j && q.hasCb then [⟨.EDIT, (rowContentsAt q i).getD []⟩] else []

/-- The callback invocations `_check_modified_widgets` produces for grid
row `i`. -/
def pureRowEvents (q : QCL) (i : Nat) : List Event :=
  if q.grid.stretch i != 0 then ((List.range q.n).map (pureCellEvents q i)).flatten else []

/-- All callback invocations of one `_check_modified_widgets` run,
computed over the pre-poll state. -/
def pureEvents (q : QCL) : List Event :=
  ((List.range q.grid.rowCount).map (pureRowEvents q)).flatten

/-- The content-level shape of a layout item: everything except the
widget's stylesheet. -/
def itemShape (it : Item) : Nat × String × Nat × Nat :=
  (it.w.wid, it.w.content, it.row, it.col)

/-- States that agree on everything `_check_modified_widgets` compares:
restyling and selection during a poll preserve this. -/
def obsEq (q q2 : QCL) : Prop :=
  q.n = q2.n ∧ q.headerPresent = q2.headerPresent ∧ q.hasCb = q2.hasCb ∧
  q.snapshot = q2.snapshot ∧ q.grid.rowCount = q2.grid.rowCount ∧
  q.grid.stretch = q2.grid.stretch ∧
  q.grid.items.map itemShape = q2.grid.items.map itemShape

/-!  Concrete states used to exercise the theorems. -/

/-- A validity function that accepts everything (the source default). -/
def vfAlwaysTrue : Vf :=
  fun _ _ => true

/-- A small concrete state: one column, no headers, two data rows with
contents `a` and `b` at grid rows 1 and 2, both polled (snapshot in sync),
a callback supplied. -/
def qA : QCL :=
  { n := 1
    headerPresent := false
    maxRows := none
    noDuplicates := []
    onlyOneEmptyRow := false
    onlyOneEmptyCell := false
    adjustParent := true
    noButtons := false
    hasCb := true
    style := defaultStyle
    grid :=
      { items := [⟨⟨10, "a", .unselected true⟩, 1, 0⟩, ⟨⟨11, "b", .unselected true⟩, 2, 0⟩]
        stretch := updFn (updFn (fun _ => 0) 1 1) 2 1
        rowCount := 3 }
    selectedRow := -1
    snapshot := [["a"], ["b"]]
    addEnabled := true
    removeEnabled := false
    timer := ⟨100, true, true⟩ }

/-- The chunk decomposition of `qA`. -/
def rcsA : List (Nat × List Widget) :=
  [(1, [⟨10, "a", .unselected true⟩]), (2, [⟨11, "b", .unselected true⟩])]

/-- `qA` with the first row selected (chunk 0), as after clicking it. -/
def qASel : QCL :=
  { qA with selectedRow := 0, removeEnabled := true }

/-- `qA` with a stale snapshot entry for the second row: the poll must
report an edit of that row. -/
def qAEdited : QCL :=
  { qA with snapshot := [["a"], ["z"]] }

/-- A state reached from a two-row `qA`-like widget by removing the first
row and letting one poll resynchronize `_widgets_content`, after which the
user edits the remaining cell from `b` to `x`: the only data row sits at
grid row 2 (grid row 1 keeps stretch 0 forever), while the snapshot holds
one row. -/
def qHole : QCL :=
  { n := 1
    headerPresent := false
    maxRows := none
    noDuplicates := []
    onlyOneEmptyRow := false
    onlyOneEmptyCell := false
    adjustParent := true
    noButtons := false
    hasCb := true
    style := defaultStyle
    grid :=
      { items := [⟨⟨11, "x", .unselected true⟩, 2, 0⟩]
        stretch := updFn (updFn (updFn (fun _ => 0) 1 1) 2 1) 1 0
        rowCount := 3 }
    selectedRow := -1
    snapshot := [["b"]]
    addEnabled := true
    removeEnabled := false
    timer := ⟨100, true, true⟩ }

/-- A style dictionary whose normal text color coincides with the
invalid color. -/
def collidingStyle : StyleDict :=
  { defaultStyle with color := r"#FF0000" }

/-- `qA` constructed with `collidingStyle` (a legal `style` argument). -/
def qCollide : QCL :=
  { qA with style := collidingStyle }

/-- Constructor arguments with every optional argument left at its
default. -/
def argsNone : InitArgs :=
  { n := none
    maxRows := none
    noDuplicates := []
    headerTexts := none
    rowWidgets := none
    initial := none
    hasCb := false
    onlyOneEmptyRow := false
    onlyOneEmptyCell := false
    adjustParent := true
    noButtons := false
    noVerif := false
    style := none }

/-- `QConfigList(initial=[])`: `initial` is empty (an enumerated invalid
argument), everything else defaulted. -/
def argsEmptyInitial : InitArgs :=
  { argsNone with initial := some [] }

/-- `QConfigList(n=1)`. -/
def argsN1 : InitArgs :=
  { argsNone with n := some 1 }

/-- The state `QConfigList(n=1)` constructs. -/
def qN1 : QCL :=
  { n := 1
    headerPresent := false
    maxRows := none
    noDuplicates := []
    onlyOneEmptyRow := false
    onlyOneEmptyCell := false
    adjustParent := true
    noButtons := false
    hasCb := false
    style := defaultStyle
    grid := Grid.empty
    selectedRow := -1
    snapshot := []
    addEnabled := true
    removeEnabled := false
    timer := ⟨100, true, true⟩ }

/-!  ### Chunk structure lemmas -/

theorem chunkItemsFrom_length (r c : Nat) (ws : List Widget) :
    (chunkItemsFrom r c ws).length = ws.length := by
  induction ws generalizing c with
  | nil => rfl
  | cons w ws ih => simp [chunkItemsFrom, ih]

theorem chunkItemsFrom_getElem? (r c : Nat) (ws : List Widget) (j : Nat) :
    (chunkItemsFrom r c ws)[j]? = ws[j]?.map (fun w => ⟨w, r, c + j⟩) := by
  induction ws generalizing c j with
  | nil => simp [chunkItemsFrom]
  | cons w ws ih =>
    cases j with
    | zero => simp [chunkItemsFrom]
    | succ j =>
      simp only [chunkItemsFrom, List.getElem?_cons_succ, ih (c + 1) j]
      have : c + 1 + j = c + (j + 1) := by omega
      rw [this]

theorem chunkItems_length (r : Nat) (ws : List Widget) :
    (chunkItems r ws).length = ws.length :=
  chunkItemsFrom_length r 0 ws

theorem chunkItems_getElem? (r : Nat) (ws : List Widget) (j : Nat) :
    (chunkItems r ws)[j]? = ws[j]?.map (fun w => ⟨w, r, j⟩) := by
  have h := chunkItemsFrom_getElem? r 0 ws j
  simpa [chunkItems] using h

theorem mem_chunkItemsFrom_row {r c : Nat} {ws : List Widget} {it : Item}
    (h : it ∈ chunkItemsFrom r c ws) : it.row = r := by
  induction ws generalizing c with
  | nil => simp [chunkItemsFrom] at h
  | cons w ws ih =>
    simp only [chunkItemsFrom, List.mem_cons] at h
    rcases h with h | h
    · subst h; rfl
    · exact ih h

theorem dataItems_append (xs ys : List (Nat × List Widget)) :
    dataItems (xs ++ ys) = dataItems xs ++ dataItems ys := by
  induction xs with
  | nil => rfl
  | cons p xs ih => simp [dataItems, ih]

theorem dataItems_length {n : Nat} (rcs : List (Nat × List Widget))
    (h : ∀ p ∈ rcs, p.2.length = n) :
    (dataItems rcs).length = n * rcs.length := by
  induction rcs with
  | nil => simp [dataItems]
  | cons p rcs ih =>
    have hp : p.2.length = n := h p (by simp)
    simp [dataItems, chunkItems_length, hp, ih (fun p hp2 => h p (by simp [hp2])), Nat.mul_succ]
    omega

theorem mem_dataItems_row {rcs : List (Nat × List Widget)} {it : Item}
    (h : it ∈ dataItems rcs) : ∃ p ∈ rcs, it.row = p.1 := by
  induction rcs with
  | nil => simp [dataItems] at h
  | cons p rcs ih =>
    simp only [dataItems, List.mem_append] at h
    rcases h with h | h
    · exact ⟨p, by simp, mem_chunkItemsFrom_row h⟩
    · obtain ⟨p2, hp2, hrow⟩ := ih h
      exact ⟨p2, by simp [hp2], hrow⟩

theorem dataItems_getElem? {n : Nat} (rcs : List (Nat × List Widget))
    (hlen : ∀ p ∈ rcs, p.2.length = n) {k j : Nat} (hk : k < rcs.length) (hj : j < n) :
    (dataItems rcs)[n * k + j]? =
      (rcs.get ⟨k, hk⟩).2[j]?.map (fun w => ⟨w, (rcs.get ⟨k, hk⟩).1, j⟩) := by
  induction rcs generalizing k with
  | nil => simp at hk
  | cons p rcs ih =>
    have hp : p.2.length = n := hlen p (by simp)
    cases k with
    | zero =>
      simp only [Nat.mul_zero, Nat.zero_add, dataItems, List.get]
      rw [List.getElem?_append_left (by rw [chunkItems_length, hp]; exact hj)]
      exact chunkItems_getElem? p.1 p.2 j
    | succ k =>
      have hk2 : k < rcs.length := by simpa using hk
      simp only [dataItems, List.get]
      rw [List.getElem?_append_right (by rw [chunkItems_length, hp, Nat.mul_succ]; omega)]
      have harith : n * (k + 1) + j - p.2.length = n * k + j := by
        rw [hp, Nat.mul_succ]; omega
      rw [chunkItems_length, harith]
      exact ih (fun p2 hp2 => hlen p2 (by simp [hp2])) hk2

/-!  ### `find?` characterizations of `itemAtPosition` -/

/-- The predicate `itemAtPosition` searches with. -/
def posP (r c : Nat) : Item → Bool :=
  fun it => it.row == r && it.col == c

theorem find?_chunkItemsFrom_ne {r r2 c j : Nat} (hne : r2 ≠ r) (ws : List Widget) :
    (chunkItemsFrom r c ws).find? (posP r2 j) = none := by
  rw [List.find?_eq_none]
  intro it hit
  have := mem_chunkItemsFrom_row hit
  simp [posP, this, hne.symm]

theorem find?_chunkItemsFrom_eq {r : Nat} (ws : List Widget) (c j : Nat) (hcj : c ≤ j) :
    (chunkItemsFrom r c ws).find? (posP r j) = ws[j - c]?.map (fun w => ⟨w, r, j⟩) := by
  induction ws generalizing c with
  | nil => simp [chunkItemsFrom]
  | cons w ws ih =>
    by_cases hj : j = c
    · subst hj
      simp [chunkItemsFrom, List.find?_cons, posP]
    · have hlt : c < j := by omega
      have hstep : (⟨w, r, c⟩ : Item) ∈ ([⟨w, r, c⟩] : List Item) := by simp
      simp only [chunkItemsFrom, List.find?_cons]
      have hfail : posP r j ⟨w, r, c⟩ = false := by simp [posP]; omega
      rw [hfail]
      rw [ih (c + 1) (by omega)]
      have : j - c = (j - (c + 1)) + 1 := by omega
      rw [this, List.getElem?_cons_succ]

theorem find?_chunkItems_eq {r : Nat} (ws : List Widget) (j : Nat) :
    (chunkItems r ws).find? (posP r j) = ws[j]?.map (fun w => ⟨w, r, j⟩) := by
  have h := @find?_chunkItemsFrom_eq r ws 0 j (Nat.zero_le j)
  simpa [chunkItems] using h

theorem find?_dataItems_not_mem {r j : Nat} (rcs : List (Nat × List Widget))
    (h : ∀ p ∈ rcs, p.1 ≠ r) :
    (dataItems rcs).find? (posP r j) = none := by
  rw [List.find?_eq_none]
  intro it hit
  obtain ⟨p, hp, hrow⟩ := mem_dataItems_row hit
  have := h p hp
  simp [posP, hrow, this]

theorem find?_dataItems_eq {r j : Nat} {ws : List Widget} (rcs : List (Nat × List Widget))
    (hsorted : List.Pairwise (· < ·) (rcs.map Prod.fst)) (hmem : (r, ws) ∈ rcs) :
    (dataItems rcs).find? (posP r j) = ws[j]?.map (fun w => ⟨w, r, j⟩) := by
  induction rcs with
  | nil => simp at hmem
  | cons p rcs ih =>
    simp only [List.map_cons, List.pairwise_cons] at hsorted
    rcases List.mem_cons.mp hmem with heq | htail
    · subst heq
      simp only [dataItems, List.find?_append, find?_chunkItems_eq]
      have htailnone : (dataItems rcs).find? (posP r j) = none := by
        apply find?_dataItems_not_mem
        intro p2 hp2
        have := hsorted.1 p2.1 (List.mem_map_of_mem Prod.fst hp2)
        omega
      rw [htailnone]
      cases h : ws[j]? <;> simp
    · have hne : r ≠ p.1 := by
        have := hsorted.1 r (List.mem_map_of_mem Prod.fst htail)
        omega
      simp only [dataItems, chunkItems, List.find?_append]
      rw [find?_chunkItemsFrom_ne hne]
      simp only [Option.none_or]
      exact ih hsorted.2 htail

/-!  ### The `widgets` property under well-formedness -/

theorem itemAtPosition_eq_of_WF {q : QCL} {hws : List Widget} {rcs : List (Nat × List Widget)}
    (hWF : WF q hws rcs) {r : Nat} {ws : List Widget} (hmem : (r, ws) ∈ rcs) (j : Nat) :
    q.grid.itemAtPosition r j = ws[j]?.map (fun w => ⟨w, r, j⟩) := by
  obtain ⟨hitems, hhws, hbounds, hsorted, hstretch, hnodup, hn, hoff, hsel⟩ := hWF
  have hfind : q.grid.items.find? (posP r j) = ws[j]?.map (fun w => ⟨w, r, j⟩) := by
    rw [hitems, List.find?_append]
    have hhdr : (chunkItems 1 hws).find? (posP r j) = none := by
      by_cases hp : q.headerPresent
      · apply find?_chunkItemsFrom_ne
        have h1 := (hbounds _ hmem).2.1
        have h2 : q.off = 2 := by simp [QCL.off, QCL.headerInt, hp]
        omega
      · have : hws = [] := List.eq_nil_of_length_eq_zero (by rw [hhws]; simp [QCL.hdrLen, hp])
        rw [this]; rfl
    rw [hhdr, Option.none_or]
    exact find?_dataItems_eq rcs hsorted hmem
  exact hfind

theorem filterMap_getElem? {α : Type} (l : List α) :
    (List.range l.length).filterMap (fun j => l[j]?) = l := by
  induction l using List.reverseRecOn with
  | nil => rfl
  | append_singleton l a ih =>
    rw [List.length_append, List.length_singleton, List.range_succ, List.filterMap_append]
    have h1 : (List.range l.length).filterMap (fun j => (l ++ [a])[j]?) =
        (List.range l.length).filterMap (fun j => l[j]?) :=
      List.filterMap_congr (fun j hj => List.getElem?_append_left (List.mem_range.mp hj))
    rw [h1, ih]
    simp [List.getElem?_concat_length]

theorem widgets_row_of_WF {q : QCL} {hws : List Widget} {rcs : List (Nat × List Widget)}
    (hWF : WF q hws rcs) {r : Nat} {ws : List Widget} (hmem : (r, ws) ∈ rcs) :
    (List.range q.n).filterMap (fun j => (q.grid.itemAtPosition r j).map (·.w)) = ws := by
  have hlen : ws.length = q.n := (hWF.2.2.1 _ hmem).1
  have hcongr : (List.range q.n).filterMap (fun j => (q.grid.itemAtPosition r j).map (·.w)) =
      (List.range q.n).filterMap (fun j => ws[j]?) := by
    apply List.filterMap_congr
    intro j hj
    rw [itemAtPosition_eq_of_WF ⟨hWF.1, hWF.2.1, hWF.2.2.1, hWF.2.2.2.1, hWF.2.2.2.2.1,
      hWF.2.2.2.2.2.1, hWF.2.2.2.2.2.2.1, hWF.2.2.2.2.2.2.2⟩ hmem j]
    cases h : ws[j]? <;> simp
  rw [hcongr, ← hlen, filterMap_getElem?]

theorem filter_row_list_of_WF {q : QCL} {hws : List Widget} {rcs : List (Nat × List Widget)}
    (hWF : WF q hws rcs) :
    (List.range' q.off (q.grid.rowCount - q.off)).filter (fun i => q.grid.stretch i != 0) =
      rcs.map Prod.fst := by
  obtain ⟨hitems, hhws, hbounds, hsorted, hstretch, hnodup, hn, hoff, hsel⟩ := hWF
  have hnd1 : ((List.range' q.off (q.grid.rowCount - q.off)).filter
      (fun i => q.grid.stretch i != 0)).Nodup :=
    (List.filter_sublist _).nodup (List.nodup_range' _ _)
  have hnd2 : (rcs.map Prod.fst).Nodup :=
    (hsorted.imp (fun h => Nat.ne_of_lt h))
  have hs1 : List.Sorted (· < ·) ((List.range' q.off (q.grid.rowCount - q.off)).filter
      (fun i => q.grid.stretch i != 0)) :=
    List.Pairwise.sublist (List.filter_sublist _) (List.pairwise_lt_range' _ _)
  have hmemiff : ∀ a, (a ∈ (List.range' q.off (q.grid.rowCount - q.off)).filter
      (fun i => q.grid.stretch i != 0)) ↔ a ∈ rcs.map Prod.fst := by
    intro a
    rw [List.mem_filter, List.mem_range'_1]
    constructor
    · rintro ⟨⟨h1, h2⟩, h3⟩
      exact (hstretch a (by omega)).mp (by simpa using h3)
    · intro hmem
      obtain ⟨p, hp, hpa⟩ := List.mem_map.mp hmem
      have hb := hbounds p hp
      refine ⟨⟨by omega, by omega⟩, ?_⟩
      have := (hstretch a (by omega)).mpr hmem
      simpa using this
  exact List.eq_of_perm_of_sorted ((List.perm_ext_iff_of_nodup hnd1 hnd2).mpr hmemiff) hs1 hsorted

theorem widgets_eq_of_WF {q : QCL} {hws : List Widget} {rcs : List (Nat × List Widget)}
    (hWF : WF q hws rcs) : q.widgets = rcs.map Prod.snd := by
  rw [QCL.widgets, filter_row_list_of_WF hWF, List.map_map]
  apply List.map_congr_left
  intro p hp
  exact widgets_row_of_WF hWF (by simpa using hp)

theorem widgets_row_length_of_WF {q : QCL} {hws : List Widget} {rcs : List (Nat × List Widget)}
    (hWF : WF q hws rcs) : ∀ row ∈ q.widgets, row.length = q.n := by
  intro row hrow
  rw [widgets_eq_of_WF hWF] at hrow
  obtain ⟨p, hp, hps⟩ := List.mem_map.mp hrow
  rw [← hps]
  exact (hWF.2.2.1 p hp).1

/-!  ### Adding a row of widgets -/

theorem addRowWidgets_go (r : Nat) :
    ∀ (ws : List Widget) (c : Nat) (g : Grid),
      ((List.enumFrom c ws).foldl (fun g' cw => g'.addWidget cw.2 r cw.1) g).items =
          g.items ++ chunkItemsFrom r c ws ∧
        ((List.enumFrom c ws).foldl (fun g' cw => g'.addWidget cw.2 r cw.1) g).stretch =
          g.stretch ∧
        ((List.enumFrom c ws).foldl (fun g' cw => g'.addWidget cw.2 r cw.1) g).rowCount =
          (if ws.isEmpty then g.rowCount else max g.rowCount (r + 1)) := by
  intro ws
  induction ws with
  | nil => intro c g; simp [chunkItemsFrom]
  | cons w ws ih =>
    intro c g
    rw [List.enumFrom_cons]
    simp only [List.foldl_cons]
    obtain ⟨h1, h2, h3⟩ := ih (c + 1) (g.addWidget w r c)
    refine ⟨?_, ?_, ?_⟩
    · rw [h1]; simp [Grid.addWidget, chunkItemsFrom]
    · rw [h2]; rfl
    · rw [h3]
      cases ws <;> simp [Grid.addWidget, List.isEmpty]

theorem addRowWidgets_items (g : Grid) (r : Nat) (ws : List Widget) :
    (g.addRowWidgets r ws).items = g.items ++ chunkItems r ws :=
  (addRowWidgets_go r ws 0 g).1

theorem addRowWidgets_stretch (g : Grid) (r : Nat) (ws : List Widget) :
    (g.addRowWidgets r ws).stretch = g.stretch :=
  (addRowWidgets_go r ws 0 g).2.1

theorem addRowWidgets_rowCount (g : Grid) (r : Nat) (ws : List Widget) (h : ws ≠ []) :
    (g.addRowWidgets r ws).rowCount = max g.rowCount (r + 1) := by
  have h3 := (addRowWidgets_go r ws 0 g).2.2
  rwa [if_neg (by simpa [List.isEmpty_iff] using h)] at h3

theorem addGridLayoutWidgets_grid (q : QCL) (ws : List Widget) (ns : Bool) :
    (addGridLayoutWidgets q ws ns).grid =
      (q.grid.addRowWidgets q.grid.rowCount ws).setRowStretch q.grid.rowCount
        (if ns then 0 else 1) := by
  unfold addGridLayoutWidgets
  dsimp only
  repeat' split
  all_goals rfl

theorem addGridLayoutWidgets_fields (q : QCL) (ws : List Widget) (ns : Bool) :
    (addGridLayoutWidgets q ws ns).n = q.n ∧
    (addGridLayoutWidgets q ws ns).headerPresent = q.headerPresent ∧
    (addGridLayoutWidgets q ws ns).maxRows = q.maxRows ∧
    (addGridLayoutWidgets q ws ns).noDuplicates = q.noDuplicates ∧
    (addGridLayoutWidgets q ws ns).onlyOneEmptyRow = q.onlyOneEmptyRow ∧
    (addGridLayoutWidgets q ws ns).onlyOneEmptyCell = q.onlyOneEmptyCell ∧
    (addGridLayoutWidgets q ws ns).adjustParent = q.adjustParent ∧
    (addGridLayoutWidgets q ws ns).noButtons = q.noButtons ∧
    (addGridLayoutWidgets q ws ns).hasCb = q.hasCb ∧
    (addGridLayoutWidgets q ws ns).style = q.style ∧
    (addGridLayoutWidgets q ws ns).selectedRow = q.selectedRow ∧
    (addGridLayoutWidgets q ws ns).snapshot = q.snapshot ∧
    (addGridLayoutWidgets q ws ns).removeEnabled = q.removeEnabled ∧
    (addGridLayoutWidgets q ws ns).timer = q.timer := by
  unfold addGridLayoutWidgets
  dsimp only
  repeat' split
  all_goals exact ⟨rfl, rfl, rfl, rfl, rfl, rfl, rfl, rfl, rfl, rfl, rfl, rfl, rfl, rfl⟩

theorem addGridLayoutWidgets_hdrLen (q : QCL) (ws : List Widget) (ns : Bool) :
    (addGridLayoutWidgets q ws ns).hdrLen = q.hdrLen := by
  have h := addGridLayoutWidgets_fields q ws ns
  simp [QCL.hdrLen, h.1, h.2.1]

theorem addGridLayoutWidgets_off (q : QCL) (ws : List Widget) (ns : Bool) :
    (addGridLayoutWidgets q ws ns).off = q.off := by
  have h := addGridLayoutWidgets_fields q ws ns
  simp [QCL.off, QCL.headerInt, h.2.1]

theorem chunkItemsFrom_map_wid (r c : Nat) (ws : List Widget) :
    (chunkItemsFrom r c ws).map (fun it => it.w.wid) = ws.map (fun w => w.wid) := by
  induction ws generalizing c with
  | nil => rfl
  | cons w ws ih => simp [chunkItemsFrom, ih]

theorem WF_addGridLayoutWidgets {q : QCL} {hws : List Widget} {rcs : List (Nat × List Widget)}
    (hWF : WF q hws rcs) (ws : List Widget) (hlen : ws.length = q.n)
    (hfresh : (q.grid.items.map (fun it => it.w.wid) ++ ws.map (fun w => w.wid)).Nodup) :
    WF (addGridLayoutWidgets q ws false) hws (rcs ++ [(q.grid.rowCount, ws)]) := by
  obtain ⟨hitems, hhws, hbounds, hsorted, hstretch, hnodup, hn, hoff, hsel⟩ := hWF
  obtain ⟨hfn, hfhp, _, _, _, _, _, _, _, _, hfsel, _, _, _⟩ := addGridLayoutWidgets_fields q ws false
  have hgrid := addGridLayoutWidgets_grid q ws false
  have hwsne : ws ≠ [] := by
    intro hnil
    rw [hnil] at hlen
    simp at hlen
    omega
  have hrc : (addGridLayoutWidgets q ws false).grid.rowCount = q.grid.rowCount + 1 := by
    rw [hgrid]
    show max (q.grid.addRowWidgets q.grid.rowCount ws).rowCount (q.grid.rowCount + 1) = _
    rw [addRowWidgets_rowCount _ _ _ hwsne]
    omega
  have hitems2 : (addGridLayoutWidgets q ws false).grid.items =
      chunkItems 1 hws ++ dataItems (rcs ++ [(q.grid.rowCount, ws)]) := by
    rw [hgrid]
    show (q.grid.addRowWidgets q.grid.rowCount ws).items = _
    rw [addRowWidgets_items, hitems, dataItems_append]
    simp [dataItems]
  have hstretch2 : (addGridLayoutWidgets q ws false).grid.stretch =
      updFn q.grid.stretch q.grid.rowCount 1 := by
    rw [hgrid]
    show updFn (q.grid.addRowWidgets q.grid.rowCount ws).stretch q.grid.rowCount _ = _
    rw [addRowWidgets_stretch]
    rfl
  refine ⟨hitems2, ?_, ?_, ?_, ?_, ?_, ?_, ?_, ?_⟩
  · rw [addGridLayoutWidgets_hdrLen]; exact hhws
  · intro p hp
    rw [hfn, addGridLayoutWidgets_off, hrc]
    rcases List.mem_append.mp hp with h | h
    · have := hbounds p h
      exact ⟨this.1, this.2.1, by omega⟩
    · simp at h
      rw [h]
      exact ⟨hlen, hoff, by omega⟩
  · rw [List.map_append]
    rw [List.pairwise_append]
    refine ⟨hsorted, by simp, ?_⟩
    intro a ha b hb
    simp at hb
    obtain ⟨p, hp, hpa⟩ := List.mem_map.mp ha
    have := (hbounds p hp).2.2
    omega
  · intro r hr
    rw [hstretch2, hrc] at *
    rw [List.map_append]
    by_cases hreq : r = q.grid.rowCount
    · subst hreq
      simp [updFn]
    · have hrlt : r < q.grid.rowCount := by omega
      have : updFn q.grid.stretch q.grid.rowCount 1 r = q.grid.stretch r := by
        simp [updFn, hreq]
      rw [this]
      rw [hstretch r hrlt]
      simp only [List.mem_append]
      constructor
      · intro h; left; exact h
      · rintro (h | h)
        · exact h
        · simp at h; omega
  · have hit3 : (addGridLayoutWidgets q ws false).grid.items =
        q.grid.items ++ chunkItems q.grid.rowCount ws := by
      rw [hgrid]
      show (q.grid.addRowWidgets q.grid.rowCount ws).items = _
      rw [addRowWidgets_items]
    rw [hit3, List.map_append]
    rw [show (chunkItems q.grid.rowCount ws).map (fun it => it.w.wid) =
      ws.map (fun w => w.wid) from chunkItemsFrom_map_wid _ 0 ws]
    exact hfresh
  · rw [hfn]; exact hn
  · rw [addGridLayoutWidgets_off, hrc]; omega
  · rw [hfsel]
    rcases hsel with h | h
    · left; exact h
    · right
      have hhi : (addGridLayoutWidgets q ws false).headerInt = q.headerInt := by
        simp [QCL.headerInt, hfhp]
      rw [hhi, List.length_append]
      refine ⟨h.1, ?_⟩
      have := h.2
      push_cast
      push_cast at this
      omega

theorem mapM_option_range' {β : Type} :
    ∀ (cnt s : Nat) (f : Nat → Option β) (l : List β),
      l.length = cnt → (∀ k, k < cnt → f (s + k) = l[k]?) →
      (List.range' s cnt).mapM f = some l := by
  intro cnt
  induction cnt with
  | zero =>
    intro s f l hlen h
    rw [List.length_eq_zero] at hlen
    subst hlen
    rfl
  | succ cnt ih =>
    intro s f l hlen h
    cases l with
    | nil => simp at hlen
    | cons b l2 =>
      rw [List.range'_succ]
      have h0 : f s = some b := by
        have := h 0 (by omega)
        simpa using this
      have hrest : (List.range' (s + 1) cnt).mapM f = some l2 := by
        apply ih (s + 1) f l2 (by simpa using hlen)
        intro k hk
        have := h (k + 1) (by omega)
        rw [show s + (k + 1) = s + 1 + k by omega] at this
        simpa using this
      rw [List.mapM_cons, h0, hrest]
      rfl

theorem gatherContents_eq {g : Grid} {lo cnt : Nat} {ws : List Widget}
    (hlen : ws.length = cnt)
    (h : ∀ k, k < cnt → (g.itemAt (lo + k)).map (fun it => it.w.content) =
      ws[k]?.map (fun w => w.content)) :
    gatherContents g lo cnt = some (ws.map (fun w => w.content)) := by
  unfold gatherContents
  rw [List.range_eq_range']
  apply mapM_option_range' cnt 0 _ _ (by simpa using hlen)
  intro k hk
  rw [Nat.zero_add]
  rw [h k hk, List.getElem?_map]

/-- The `_add_grid_layout_row` callback under well-formedness: exactly one
row of `n` styled widgets is appended (in column order) and the callback
receives `ADD` with the new widgets' contents. -/
theorem addGridLayoutRow_eq {q : QCL} {hws : List Widget} {rcs : List (Nat × List Widget)}
    (hWF : WF q hws rcs) (vf : Vf) (newWs : List Widget)
    (hlen : newWs.length = q.n) (hcb : q.hasCb = true)
    (hfresh : (q.grid.items.map (fun it => it.w.wid) ++ newWs.map (fun w => w.wid)).Nodup) :
    ∃ q2, addGridLayoutRow q vf newWs = .ok (q2, [⟨.ADD, newWs.map (fun w => w.content)⟩]) ∧
      WF q2 hws (rcs ++ [(q.grid.rowCount,
        newWs.map (fun w => { w with style := StyleState.unselected (vf q.widgets newWs) }))]) ∧
      q2.widgets = q.widgets ++
        [newWs.map (fun w => { w with style := StyleState.unselected (vf q.widgets newWs) })] := by
  set v := vf q.widgets newWs with hv
  set styled := newWs.map (fun w => { w with style := StyleState.unselected v }) with hstyled
  have hslen : styled.length = q.n := by rw [hstyled, List.length_map, hlen]
  have hswid : styled.map (fun w => w.wid) = newWs.map (fun w => w.wid) := by
    rw [hstyled, List.map_map]
    rfl
  have hWF2 : WF (addGridLayoutWidgets q styled false) hws (rcs ++ [(q.grid.rowCount, styled)]) :=
    WF_addGridLayoutWidgets hWF styled hslen (by rw [hswid]; exact hfresh)
  set q1 := addGridLayoutWidgets q styled false with hq1
  have hit : q1.grid.items = q.grid.items ++ chunkItems q.grid.rowCount styled := by
    rw [hq1, addGridLayoutWidgets_grid]
    show (q.grid.addRowWidgets q.grid.rowCount styled).items = _
    rw [addRowWidgets_items]
  have hcount : q1.grid.count = q.grid.count + q.n := by
    rw [Grid.count, hit, List.length_append, chunkItems_length, hslen]
    rfl
  have hgather : gatherContents q1.grid (q1.grid.count - q.n) q.n =
      some (styled.map (fun w => w.content)) := by
    apply gatherContents_eq hslen
    intro k hk
    rw [hcount]
    have hidx : q.grid.count + q.n - q.n + k = q.grid.count + k := by omega
    rw [hidx, Grid.itemAt, hit,
      List.getElem?_append_right (by rw [Grid.count]; omega)]
    rw [show q.grid.count + k - q.grid.items.length = k from by rw [Grid.count]; omega]
    rw [chunkItems_getElem?]
    cases hsk : styled[k]? <;> simp
  have hcontents : styled.map (fun w => w.content) = newWs.map (fun w => w.content) := by
    rw [hstyled, List.map_map]
    rfl
  refine ⟨q1, ?_, hWF2, ?_⟩
  · unfold addGridLayoutRow
    dsimp only
    rw [← hv, ← hstyled, ← hq1, hgather, hcontents, hcb]
    rfl
  · rw [widgets_eq_of_WF hWF2, widgets_eq_of_WF hWF, List.map_append]
    rfl

/-!  ### Removing the selected row -/

theorem eraseIdx_eq_take_drop {α : Type} : ∀ (l : List α) (k : Nat),
    l.eraseIdx k = l.take k ++ l.drop (k + 1) := by
  intro l
  induction l with
  | nil => intro k; simp [List.eraseIdx]
  | cons a l ih =>
    intro k
    cases k with
    | zero => simp [List.eraseIdx]
    | succ k => simp [List.eraseIdx, ih k]

theorem map_eraseIdx {α β : Type} (f : α → β) : ∀ (l : List α) (k : Nat),
    (l.eraseIdx k).map f = (l.map f).eraseIdx k := by
  intro l
  induction l with
  | nil => intro k; simp [List.eraseIdx]
  | cons a l ih =>
    intro k
    cases k with
    | zero => simp [List.eraseIdx]
    | succ k => simp [List.eraseIdx, ih k]

theorem eraseP_wid_eq : ∀ (l : List Item) (i : Nat) (it : Item),
    (l.map (fun it2 => it2.w.wid)).Nodup → l[i]? = some it →
    l.eraseP (fun it2 => it2.w.wid == it.w.wid) = l.take i ++ l.drop (i + 1) := by
  intro l
  induction l with
  | nil => intro i it _ hi; simp at hi
  | cons a l ih =>
    intro i it hnd hi
    cases i with
    | zero =>
      simp only [List.getElem?_cons_zero, Option.some_inj] at hi
      subst hi
      rw [List.eraseP_cons_of_pos (by simp)]
      simp
    | succ i =>
      simp only [List.getElem?_cons_succ] at hi
      simp only [List.map_cons, List.nodup_cons] at hnd
      have hmem : it ∈ l := List.mem_iff_getElem?.mpr ⟨i, hi⟩
      have hne2 : (a.w.wid == it.w.wid) = false := by
        simp only [beq_eq_false_iff_ne, ne_eq]
        intro heq
        exact hnd.1 (heq ▸ List.mem_map_of_mem (fun it2 => it2.w.wid) hmem)
      rw [List.eraseP_cons, hne2]
      simp only [cond_false]
      rw [ih i it hnd.2 hi]
      simp

theorem removeLoop_ok : ∀ (cnt : Nat) (g : Grid) (i : Nat),
    (g.items.map (fun it => it.w.wid)).Nodup → i + cnt ≤ g.items.length →
    removeLoop g i cnt = .ok { g with items := g.items.take i ++ g.items.drop (i + cnt) } := by
  intro cnt
  induction cnt with
  | zero =>
    intro g i hnd hb
    show Except.ok g = _
    rw [Nat.add_zero, List.take_append_drop]
  | succ cnt ih =>
    intro g i hnd hb
    have hi : i < g.items.length := by omega
    have hit : g.items[i]? = some g.items[i] := List.getElem?_eq_getElem hi
    have hia : g.itemAt i = some g.items[i] := hit
    rw [show removeLoop g i (cnt + 1) =
      (match g.itemAt i with
        | none => Except.error .attributeError
        | some it => removeLoop (g.removeWidget it.w.wid) i cnt) from rfl, hia]
    show removeLoop (g.removeWidget g.items[i].w.wid) i cnt = _
    have herase : (g.removeWidget g.items[i].w.wid).items =
        g.items.take i ++ g.items.drop (i + 1) := by
      show g.items.eraseP _ = _
      exact eraseP_wid_eq g.items i g.items[i] hnd hit
    have hsub : ((g.removeWidget g.items[i].w.wid).items.map (fun it2 => it2.w.wid)).Nodup := by
      rw [herase, ← eraseIdx_eq_take_drop]
      exact (((List.eraseIdx_sublist _ _).map _)).nodup hnd
    have hlen2 : (g.removeWidget g.items[i].w.wid).items.length = g.items.length - 1 := by
      rw [herase, List.length_append, List.length_take, List.length_drop]
      omega
    have hb2 : i + cnt ≤ (g.removeWidget g.items[i].w.wid).items.length := by omega
    rw [ih _ i hsub hb2]
    have htake : (g.removeWidget g.items[i].w.wid).items.take i = g.items.take i := by
      rw [herase, List.take_append_eq_append_take, List.take_take]
      have h1 : min i i = i := by omega
      have h2 : i - (g.items.take i).length = 0 := by
        rw [List.length_take]; omega
      rw [h1, h2, List.take_zero, List.append_nil]
    have hdrop : (g.removeWidget g.items[i].w.wid).items.drop (i + cnt) =
        g.items.drop (i + (cnt + 1)) := by
      rw [herase, List.drop_append_eq_append_drop]
      have h1 : (g.items.take i).drop (i + cnt) = [] :=
        List.drop_eq_nil_of_le (by rw [List.length_take]; omega)
      have h2 : i + cnt - (g.items.take i).length = cnt := by
        rw [List.length_take]; omega
      rw [h1, h2, List.nil_append, List.drop_drop]
      congr 1
      omega
    rw [htake, hdrop]
    rfl

theorem dataItems_split (rcs : List (Nat × List Widget)) (k : Nat) :
    dataItems rcs = dataItems (rcs.take k) ++ dataItems (rcs.drop k) := by
  rw [← dataItems_append, List.take_append_drop]

/-- `self._hdrLen` is `n` times the header indicator. -/
theorem hdrLen_eq (q : QCL) : q.hdrLen = q.n * q.headerInt := by
  by_cases h : q.headerPresent <;> simp [QCL.hdrLen, QCL.headerInt, h]

/-- The `_remove_grid_layout_selected_row` callback under well-formedness
with data chunk `k` selected and a callback supplied: the `n` widgets of
that chunk are removed, the callback receives `REMOVE` with the removed
row's contents, the selection is cleared and the remove button disabled. -/
theorem removeSelectedRow_eq {q : QCL} {hws : List Widget} {rcs : List (Nat × List Widget)}
    {k : Nat} (hWF : WF q hws rcs) (hk : k < rcs.length)
    (hsel : q.selectedRow = ((q.headerInt + k : Nat) : Int)) (hcb : q.hasCb = true) :
    ∃ q2 : QCL,
      removeSelectedRow q =
        .ok (q2, [⟨.REMOVE, (rcs.get ⟨k, hk⟩).2.map (fun w => w.content)⟩]) ∧
      q2.selectedRow = -1 ∧ q2.removeEnabled = false ∧
      q2.grid.count = q.grid.count - q.n ∧
      WF q2 hws (rcs.eraseIdx k) ∧
      q2.widgets = q.widgets.eraseIdx k := by
  obtain ⟨hitems, hhws, hbounds, hsorted, hstretch, hnodup, hn, hoff, hselWF⟩ := hWF
  set p := rcs.get ⟨k, hk⟩ with hp
  have hpmem : p ∈ rcs := List.getElem_mem hk
  obtain ⟨hplen, hpoff, hprc⟩ := hbounds p hpmem
  have hHlen : (chunkItems 1 hws).length = q.hdrLen := by
    rw [chunkItems_length, hhws]
  have hDlen : (dataItems rcs).length = q.n * rcs.length :=
    dataItems_length rcs (fun p2 hp2 => (hbounds p2 hp2).1)
  have hilen : q.grid.items.length = q.hdrLen + q.n * rcs.length := by
    rw [hitems, List.length_append, hHlen, hDlen]
  -- the start index of the selected chunk
  have htoNat : q.selectedRow.toNat = q.headerInt + k := by
    rw [hsel]; exact Int.toNat_natCast _
  have hidx : q.n * q.selectedRow.toNat = q.hdrLen + q.n * k := by
    rw [htoNat, Nat.mul_add, hdrLen_eq]
  -- the item at the chunk start
  have hget : ∀ j, j < q.n →
      q.grid.items[q.hdrLen + q.n * k + j]? = p.2[j]?.map (fun w => ⟨w, p.1, j⟩) := by
    intro j hj
    rw [hitems, List.getElem?_append_right (by rw [hHlen]; omega),
      show q.hdrLen + q.n * k + j - (chunkItems 1 hws).length = q.n * k + j from by
        rw [hHlen]; omega]
    exact dataItems_getElem? rcs (fun p2 hp2 => (hbounds p2 hp2).1) hk hj
  have hp2pos : 0 < p.2.length := by omega
  obtain ⟨w0, hw0⟩ : ∃ w0, p.2[0]? = some w0 :=
    ⟨p.2.get ⟨0, hp2pos⟩, List.getElem?_eq_getElem hp2pos⟩
  have hit0 : q.grid.itemAt (q.n * q.selectedRow.toNat) = some ⟨w0, p.1, 0⟩ := by
    show q.grid.items[q.n * q.selectedRow.toNat]? = _
    rw [hidx, show q.hdrLen + q.n * k = q.hdrLen + q.n * k + 0 from by omega, hget 0 (by omega),
      hw0]
    rfl
  -- the grid after `setRowStretch(row, 0)`
  set g1 := q.grid.setRowStretch p.1 0 with hg1
  have hg1items : g1.items = q.grid.items := rfl
  have hg1rc : g1.rowCount = q.grid.rowCount := by
    show max q.grid.rowCount (p.1 + 1) = q.grid.rowCount
    omega
  -- the callback contents
  have hgather : gatherContents g1 (q.n * q.selectedRow.toNat) q.n =
      some (p.2.map (fun w => w.content)) := by
    apply gatherContents_eq hplen
    intro j hj
    show (g1.items[q.n * q.selectedRow.toNat + j]?).map _ = _
    rw [hg1items, hidx, show q.hdrLen + q.n * k + j = q.hdrLen + q.n * k + j from rfl,
      hget j hj]
    cases h2 : p.2[j]? <;> simp
  -- the removal loop
  have hloop : removeLoop g1 (q.n * q.selectedRow.toNat) q.n =
      .ok { g1 with items := g1.items.take (q.n * q.selectedRow.toNat) ++
        g1.items.drop (q.n * q.selectedRow.toNat + q.n) } := by
    apply removeLoop_ok
    · rw [hg1items]; exact hnodup
    · rw [hg1items, hilen, hidx]
      have : k + 1 ≤ rcs.length := hk
      calc q.hdrLen + q.n * k + q.n = q.hdrLen + q.n * (k + 1) := by ring
        _ ≤ q.hdrLen + q.n * rcs.length := by
            have := Nat.mul_le_mul_left q.n this
            omega
  -- the final items
  have hTk : (dataItems (rcs.take k)).length = q.n * k := by
    rw [dataItems_length (rcs.take k) (fun p2 hp2 =>
      (hbounds p2 (List.mem_of_mem_take hp2)).1), List.length_take]
    congr 1
    omega
  have hTk1 : (dataItems (rcs.take (k + 1))).length = q.n * (k + 1) := by
    rw [dataItems_length (rcs.take (k + 1)) (fun p2 hp2 =>
      (hbounds p2 (List.mem_of_mem_take hp2)).1), List.length_take]
    congr 1
    omega
  have hitems2 : g1.items.take (q.n * q.selectedRow.toNat) ++
      g1.items.drop (q.n * q.selectedRow.toNat + q.n) =
      chunkItems 1 hws ++ dataItems (rcs.eraseIdx k) := by
    rw [hg1items, hidx, hitems]
    have h1 : (chunkItems 1 hws ++ dataItems rcs).take (q.hdrLen + q.n * k) =
        chunkItems 1 hws ++ dataItems (rcs.take k) := by
      rw [List.take_append_eq_append_take,
        List.take_of_length_le (by rw [hHlen]; omega),
        show q.hdrLen + q.n * k - (chunkItems 1 hws).length = q.n * k from by rw [hHlen]; omega]
      congr 1
      rw [dataItems_split rcs k, List.take_append_eq_append_take,
        List.take_of_length_le (by rw [hTk]),
        show q.n * k - (dataItems (rcs.take k)).length = 0 from by rw [hTk]; omega,
        List.take_zero, List.append_nil]
    have h2 : (chunkItems 1 hws ++ dataItems rcs).drop (q.hdrLen + q.n * k + q.n) =
        dataItems (rcs.drop (k + 1)) := by
      rw [List.drop_append_eq_append_drop,
        List.drop_eq_nil_of_le (by rw [hHlen]; omega),
        show q.hdrLen + q.n * k + q.n - (chunkItems 1 hws).length = q.n * (k + 1) from by
          rw [hHlen]; ring_nf; omega,
        List.nil_append]
      rw [dataItems_split rcs (k + 1), List.drop_append_eq_append_drop,
        List.drop_eq_nil_of_le (by rw [hTk1]),
        show q.n * (k + 1) - (dataItems (rcs.take (k + 1))).length = 0 from by rw [hTk1]; omega,
        List.drop_zero, List.nil_append]
    rw [h1, h2, List.append_assoc]
    congr 1
    rw [← dataItems_append]
    congr 1
    rw [eraseIdx_eq_take_drop]
  set g2 : Grid := ({ g1 with items := g1.items.take (q.n * q.selectedRow.toNat) ++ g1.items.drop (q.n * q.selectedRow.toNat + q.n) } : Grid) with hg2
  set q1 : QCL := ({ q with grid := g2, selectedRow := -1, removeEnabled := false } : QCL) with hq1
  have hg2rc : g2.rowCount = q.grid.rowCount := hg1rc
  have hg2stretch : g2.stretch = updFn q.grid.stretch p.1 0 := rfl
  have hrowsk : (rcs.map Prod.fst)[k]? = some p.1 := by
    rw [List.getElem?_map, hp]
    rw [List.getElem?_eq_getElem hk]
    rfl
  have hkmap : k < (rcs.map Prod.fst).length := by simpa using hk
  have hrowsk2 : (rcs.map Prod.fst)[k] = p.1 := by
    have h2 := List.getElem?_eq_getElem hkmap
    rw [h2] at hrowsk
    exact Option.some_inj.mp hrowsk
  have hnotmem : p.1 ∉ (rcs.eraseIdx k).map Prod.fst := by
    rw [map_eraseIdx, eraseIdx_eq_take_drop]
    intro hmem
    rcases List.mem_append.mp hmem with hmem2 | hmem2
    · obtain ⟨i, hi, hieq⟩ := List.mem_take_iff_getElem.mp hmem2
      have hik : i < k := by
        simp only [lt_min_iff] at hi
        exact hi.1
      have := List.pairwise_iff_getElem.mp hsorted i k (by simp at hi; omega)
        (by simpa using hk) hik
      rw [hieq, hrowsk2] at this
      omega
    · obtain ⟨i, hi⟩ := List.mem_iff_getElem?.mp hmem2
      rw [List.getElem?_drop] at hi
      have hilen : k + 1 + i < (rcs.map Prod.fst).length := by
        by_contra hc
        rw [List.getElem?_eq_none (by omega)] at hi
        exact Option.noConfusion hi
      have := List.pairwise_iff_getElem.mp hsorted k (k + 1 + i)
        (by simpa using hk) hilen (by omega)
      rw [List.getElem?_eq_getElem hilen] at hi
      rw [hrowsk2, Option.some_inj.mp hi] at this
      omega
  have hmemsplit : ∀ r, r ≠ p.1 →
      (r ∈ rcs.map Prod.fst ↔ r ∈ (rcs.eraseIdx k).map Prod.fst) := by
    intro r hr
    rw [map_eraseIdx, eraseIdx_eq_take_drop]
    have hdecomp : rcs.map Prod.fst =
        (rcs.map Prod.fst).take k ++ (rcs.map Prod.fst)[k] :: (rcs.map Prod.fst).drop (k + 1) := by
      conv_lhs => rw [← List.take_append_drop k (rcs.map Prod.fst)]
      congr 1
      exact List.drop_eq_getElem_cons (by simpa using hk)
    constructor
    · intro hmem
      rw [hdecomp] at hmem
      rcases List.mem_append.mp hmem with h2 | h2
      · exact List.mem_append.mpr (Or.inl h2)
      · rcases List.mem_cons.mp h2 with h3 | h3
        · rw [hrowsk2] at h3; exact absurd h3 hr
        · exact List.mem_append.mpr (Or.inr h3)
    · intro hmem
      rw [hdecomp]
      rcases List.mem_append.mp hmem with h2 | h2
      · exact List.mem_append.mpr (Or.inl h2)
      · exact List.mem_append.mpr (Or.inr (List.mem_cons.mpr (Or.inr h2)))
  have hsub2 : (g2.items.map (fun it => it.w.wid)).Nodup := by
    have hstep : (q.grid.items.drop (q.n * q.selectedRow.toNat + q.n)).Sublist
        (q.grid.items.drop (q.n * q.selectedRow.toNat)) := by
      rw [← List.drop_drop]
      exact List.drop_sublist _ _
    have hsubl : (q.grid.items.take (q.n * q.selectedRow.toNat) ++
        q.grid.items.drop (q.n * q.selectedRow.toNat + q.n)).Sublist q.grid.items := by
      have h2 := hstep.append_left (q.grid.items.take (q.n * q.selectedRow.toNat))
      rw [List.take_append_drop] at h2
      exact h2
    have hsubl2 : g2.items.Sublist q.grid.items := hsubl
    exact (hsubl2.map _).nodup hnodup
  have hWF2 : ∀ b : Bool, WF { q1 with addEnabled := b } hws (rcs.eraseIdx k) := by
    intro b
    refine ⟨hitems2, hhws, ?_, ?_, ?_, hsub2, hn, ?_, Or.inl rfl⟩
    · intro p2 hp2
      have hp2mem : p2 ∈ rcs := ((List.eraseIdx_sublist rcs k).subset) hp2
      obtain ⟨h1, h2, h3⟩ := hbounds p2 hp2mem
      exact ⟨h1, h2, by rw [show ({ q1 with addEnabled := b } : QCL).grid.rowCount =
        g2.rowCount from rfl, hg2rc]; exact h3⟩
    · rw [show (rcs.eraseIdx k).map Prod.fst = (rcs.map Prod.fst).eraseIdx k from
        map_eraseIdx _ rcs k]
      exact List.Pairwise.sublist (List.eraseIdx_sublist _ _) hsorted
    · intro r hr
      rw [show ({ q1 with addEnabled := b } : QCL).grid.stretch = g2.stretch from rfl,
        hg2stretch]
      rw [show ({ q1 with addEnabled := b } : QCL).grid.rowCount = g2.rowCount from rfl,
        hg2rc] at hr
      by_cases hreq : r = p.1
      · subst hreq
        simp only [updFn, if_pos rfl]
        constructor
        · intro h; exact absurd rfl h
        · intro h; exact absurd h hnotmem
      · rw [show updFn q.grid.stretch p.1 0 r = q.grid.stretch r from by
          simp [updFn, hreq]]
        rw [hstretch r hr]
        exact hmemsplit r hreq
    · rw [show ({ q1 with addEnabled := b } : QCL).grid.rowCount = g2.rowCount from rfl,
        hg2rc]
      exact hoff
  have hcount2 : g2.items.length = q.grid.items.length - q.n := by
    show (g1.items.take (q.n * q.selectedRow.toNat) ++
      g1.items.drop (q.n * q.selectedRow.toNat + q.n)).length = _
    rw [hg1items, List.length_append, List.length_take, List.length_drop, hilen, hidx]
    have hle : q.hdrLen + q.n * k + q.n ≤ q.hdrLen + q.n * rcs.length := by
      have h1 : k + 1 ≤ rcs.length := hk
      have := Nat.mul_le_mul_left q.n h1
      calc q.hdrLen + q.n * k + q.n = q.hdrLen + q.n * (k + 1) := by ring
        _ ≤ q.hdrLen + q.n * rcs.length := by omega
    omega
  have hwidgets2 : ∀ b : Bool, ({ q1 with addEnabled := b } : QCL).widgets =
      q.widgets.eraseIdx k := by
    intro b
    rw [widgets_eq_of_WF (hWF2 b),
      widgets_eq_of_WF (⟨hitems, hhws, hbounds, hsorted, hstretch, hnodup, hn, hoff, hselWF⟩ :
        WF q hws rcs),
      map_eraseIdx]
  -- now run the handler
  unfold removeSelectedRow
  rw [if_neg (by rw [hsel]; omega)]
  dsimp only
  rw [show q.grid.itemAt (q.n * q.selectedRow.toNat) = some ⟨w0, p.1, 0⟩ from hit0]
  dsimp only
  rw [← hg1, hgather]
  dsimp only
  rw [if_neg (show ¬((!q.hasCb) = true) from by rw [hcb]; simp)]
  rw [hloop]
  dsimp only
  rw [← hq1]
  split
  · split
    · exact ⟨_, rfl, rfl, rfl, hcount2, hWF2 true, hwidgets2 true⟩
    · exact ⟨_, rfl, rfl, rfl, hcount2, hWF2 true, hwidgets2 true⟩
  · split
    · exact ⟨_, rfl, rfl, rfl, hcount2, hWF2 true, hwidgets2 true⟩
    · exact ⟨_, rfl, rfl, rfl, hcount2, hWF2 q1.addEnabled, hwidgets2 q1.addEnabled⟩

/-!  ### Observational equality and the poll

Restyling and selection (the state changes `_widget_interacted` makes
during a poll) do not change widget identities, contents, positions,
stretch factors, the row count or the recorded snapshot, so the poll's
comparisons behave as on the pre-poll state.  The lemmas below make this
precise. -/

theorem obsEq_refl (q : QCL) : obsEq q q :=
  ⟨rfl, rfl, rfl, rfl, rfl, rfl, rfl⟩

theorem obsEq_trans {q1 q2 q3 : QCL} (h1 : obsEq q1 q2) (h2 : obsEq q2 q3) : obsEq q1 q3 := by
  obtain ⟨a1, a2, a3, a4, a5, a6, a7⟩ := h1
  obtain ⟨b1, b2, b3, b4, b5, b6, b7⟩ := h2
  exact ⟨a1.trans b1, a2.trans b2, a3.trans b3, a4.trans b4, a5.trans b5, a6.trans b6,
    a7.trans b7⟩

theorem find?_shape_congr {l1 l2 : List Item} (h : l1.map itemShape = l2.map itemShape)
    (pf : Nat × String × Nat × Nat → Bool) :
    (l1.find? (fun it => pf (itemShape it))).map itemShape =
      (l2.find? (fun it => pf (itemShape it))).map itemShape := by
  have h1 : (l1.map itemShape).find? pf = (l1.find? (pf ∘ itemShape)).map itemShape :=
    List.find?_map itemShape l1
  have h2 : (l2.map itemShape).find? pf = (l2.find? (pf ∘ itemShape)).map itemShape :=
    List.find?_map itemShape l2
  show (l1.find? (pf ∘ itemShape)).map itemShape = (l2.find? (pf ∘ itemShape)).map itemShape
  rw [← h1, ← h2, h]

theorem itemAtPosition_obs {q q2 : QCL} (h : obsEq q q2) (r c : Nat) :
    (q.grid.itemAtPosition r c).map itemShape = (q2.grid.itemAtPosition r c).map itemShape := by
  have := find?_shape_congr h.2.2.2.2.2.2 (fun t => t.2.2.1 == r && t.2.2.2 == c)
  exact this

theorem itemAt_obs {q q2 : QCL} (h : obsEq q q2) (i : Nat) :
    (q.grid.itemAt i).map itemShape = (q2.grid.itemAt i).map itemShape := by
  show (q.grid.items[i]?).map itemShape = (q2.grid.items[i]?).map itemShape
  rw [← List.getElem?_map, ← List.getElem?_map, h.2.2.2.2.2.2]

theorem indexOf_obs {q q2 : QCL} (h : obsEq q q2) (wid : Nat) :
    q.grid.indexOf wid = q2.grid.indexOf wid := by
  unfold Grid.indexOf
  have h1 : (q.grid.items.map itemShape).findIdx? (fun t => t.1 == wid) =
      q.grid.items.findIdx? ((fun t => t.1 == wid) ∘ itemShape) :=
    List.findIdx?_map itemShape q.grid.items
  have h2 : (q2.grid.items.map itemShape).findIdx? (fun t => t.1 == wid) =
      q2.grid.items.findIdx? ((fun t => t.1 == wid) ∘ itemShape) :=
    List.findIdx?_map itemShape q2.grid.items
  have h3 : q.grid.items.findIdx? ((fun t => t.1 == wid) ∘ itemShape) =
      q2.grid.items.findIdx? ((fun t => t.1 == wid) ∘ itemShape) := by
    rw [← h1, ← h2, h.2.2.2.2.2.2]
  exact congrArg (fun o => (match o with | some k => (k : Int) | none => (-1 : Int))) h3

theorem count_obs {q q2 : QCL} (h : obsEq q q2) : q.grid.count = q2.grid.count := by
  show q.grid.items.length = q2.grid.items.length
  rw [← List.length_map _ itemShape, ← List.length_map _ itemShape, h.2.2.2.2.2.2]

theorem option_shape_comp {α : Type} {o1 o2 : Option Item}
    (h : o1.map itemShape = o2.map itemShape) (f : Nat × String × Nat × Nat → α) :
    o1.map (fun it => f (itemShape it)) = o2.map (fun it => f (itemShape it)) := by
  cases o1 <;> cases o2 <;> simp_all

theorem rowContentsAt_obs {q q2 : QCL} (h : obsEq q q2) (i : Nat) :
    rowContentsAt q i = rowContentsAt q2 i := by
  unfold rowContentsAt
  rw [h.1]
  have hfun : ∀ j, (q.grid.itemAtPosition i j).map (fun it => it.w.content) =
      (q2.grid.itemAtPosition i j).map (fun it => it.w.content) := by
    intro j
    exact option_shape_comp (itemAtPosition_obs h i j) (fun t => t.2.1)
  simp only [hfun]

theorem setWidgetStyle_shape (g : Grid) (wid : Nat) (s : StyleState) :
    (g.setWidgetStyle wid s).items.map itemShape = g.items.map itemShape := by
  show (g.items.map _).map itemShape = _
  rw [List.map_map]
  apply List.map_congr_left
  intro it _
  by_cases h : it.w.wid = wid <;> simp [itemShape, h]

theorem foldl_setWidgetStyle_obs (st : Widget → StyleState) :
    ∀ (ws : List Widget) (g : Grid),
      (ws.foldl (fun g2 w => g2.setWidgetStyle w.wid (st w)) g).items.map itemShape =
          g.items.map itemShape ∧
        (ws.foldl (fun g2 w => g2.setWidgetStyle w.wid (st w)) g).stretch = g.stretch ∧
        (ws.foldl (fun g2 w => g2.setWidgetStyle w.wid (st w)) g).rowCount = g.rowCount := by
  intro ws
  induction ws with
  | nil => intro g; exact ⟨rfl, rfl, rfl⟩
  | cons w ws ih =>
    intro g
    obtain ⟨h1, h2, h3⟩ := ih (g.setWidgetStyle w.wid (st w))
    refine ⟨?_, ?_, ?_⟩
    · rw [List.foldl_cons, h1, setWidgetStyle_shape]
    · rw [List.foldl_cons, h2]; rfl
    · rw [List.foldl_cons, h3]; rfl

theorem restyleRow_obs {q : QCL} {vf : Vf} {i : Nat} {sel : Bool} {q2 : QCL}
    (h : restyleRow q vf i sel = .ok q2) : obsEq q q2 := by
  unfold restyleRow at h
  cases hrow : getRowAt q.grid i q.n with
  | none => rw [hrow] at h; exact absurd h (by simp)
  | some row =>
    rw [hrow] at h
    simp only [Except.ok.injEq] at h
    subst h
    obtain ⟨h1, h2, h3⟩ := foldl_setWidgetStyle_obs
      (fun _ => if sel then StyleState.selected (vf q.widgets row)
        else StyleState.unselected (vf q.widgets row)) row q.grid
    exact ⟨rfl, rfl, rfl, rfl, h3.symm, h2.symm, h1.symm⟩

theorem selectRow_obs (q : QCL) (rn : Int) : obsEq q (selectRow q rn) :=
  ⟨rfl, rfl, rfl, rfl, rfl, rfl, rfl⟩

theorem unselectChunks_obs {vf : Vf} :
    ∀ (is : List Nat) (q q2 : QCL), unselectChunks q vf is = .ok q2 → obsEq q q2 := by
  intro is
  induction is with
  | nil =>
    intro q q2 h
    simp only [unselectChunks, Except.ok.injEq] at h
    subst h
    exact obsEq_refl q
  | cons i rest ih =>
    intro q q2 h
    unfold unselectChunks at h
    cases hr : restyleRow q vf i false with
    | error e => rw [hr] at h; exact absurd h (by simp)
    | ok q1 =>
      rw [hr] at h
      exact obsEq_trans (restyleRow_obs hr) (ih q1 q2 h)

theorem widgetClicked_obs {q : QCL} {vf : Vf} {wid : Nat} {ns : Bool} {q2 : QCL}
    (h : widgetClicked q vf wid ns = .ok q2) : obsEq q q2 := by
  unfold widgetClicked at h
  dsimp only at h
  cases hu : unselectChunks q vf (rangeStep q.hdrLen q.grid.count q.n) with
  | error e => rw [hu] at h; exact absurd h (by simp)
  | ok q1 =>
    rw [hu] at h
    dsimp only at h
    by_cases hns : ns = true
    · rw [if_pos hns] at h
      simp only [Except.ok.injEq] at h
      subst h
      exact unselectChunks_obs _ q _ hu
    · rw [if_neg hns] at h
      cases hrr : restyleRow q1 vf ((q.n : Int) * pyDivTrunc (q.grid.indexOf wid) q.n).toNat true with
      | error e => rw [hrr] at h; exact absurd h (by simp)
      | ok q1b =>
        rw [hrr] at h
        simp only [Except.ok.injEq] at h
        subst h
        exact obsEq_trans (unselectChunks_obs _ q q1 hu)
          (obsEq_trans (restyleRow_obs hrr) (selectRow_obs q1b _))

theorem widgetInteracted_obs {q : QCL} {vf : Vf} {wid : Nat} {q2 : QCL}
    (h : widgetInteracted q vf wid = .ok q2) : obsEq q q2 := by
  unfold widgetInteracted at h
  dsimp only at h
  cases hrow : getRowAt q.grid ((q.n : Int) * pyDivTrunc (q.grid.indexOf wid) q.n).toNat q.n with
  | none => rw [hrow] at h; exact absurd h (by simp)
  | some row0 =>
    rw [hrow] at h
    cases hc : widgetClicked q vf wid false with
    | error e => rw [hc] at h; exact absurd h (by simp)
    | ok q1 =>
      rw [hc] at h
      dsimp only at h
      set q1b : QCL := if q1.onlyOneEmptyRow && !q1.anyEmptyRows then
        { q1 with addEnabled := true } else q1 with hq1b
      set q1c : QCL := if q1b.onlyOneEmptyCell && !q1b.anyEmptyCell then
        { q1b with addEnabled := true } else q1b with hq1c
      have hobs1b : obsEq q1 q1b := by
        rw [hq1b]; split
        · exact ⟨rfl, rfl, rfl, rfl, rfl, rfl, rfl⟩
        · exact obsEq_refl q1
      have hobs1c : obsEq q1b q1c := by
        rw [hq1c]; split
        · exact ⟨rfl, rfl, rfl, rfl, rfl, rfl, rfl⟩
        · exact obsEq_refl q1b
      cases hrow3 : getRowAt q1c.grid ((q.n : Int) * pyDivTrunc (q.grid.indexOf wid) q.n).toNat
          q1c.n with
      | none => rw [hrow3] at h; exact absurd h (by simp)
      | some row3 =>
        rw [hrow3] at h
        simp only [Except.ok.injEq] at h
        subst h
        obtain ⟨h1, h2, h3⟩ := foldl_setWidgetStyle_obs
          (fun _ => StyleState.selected (vf q1c.widgets row3)) row3 q1c.grid
        exact obsEq_trans (widgetClicked_obs hc)
          (obsEq_trans hobs1b (obsEq_trans hobs1c ⟨rfl, rfl, rfl, rfl, h3.symm, h2.symm, h1.symm⟩))

theorem itemAt_chunk_of_WF {q : QCL} {hws : List Widget} {rcs : List (Nat × List Widget)}
    (hWF : WF q hws rcs) {k j : Nat} (hk : k < rcs.length) (hj : j < q.n) :
    q.grid.itemAt (q.hdrLen + q.n * k + j) =
      ((rcs.get ⟨k, hk⟩).2[j]?).map (fun w => ⟨w, (rcs.get ⟨k, hk⟩).1, j⟩) := by
  obtain ⟨hitems, hhws, hbounds, hsorted, hstretch, hnodup, hn, hoff, hsel⟩ := hWF
  have hHlen : (chunkItems 1 hws).length = q.hdrLen := by
    rw [chunkItems_length, hhws]
  show q.grid.items[q.hdrLen + q.n * k + j]? = _
  rw [hitems, List.getElem?_append_right (by rw [hHlen]; omega),
    show q.hdrLen + q.n * k + j - (chunkItems 1 hws).length = q.n * k + j from by
      rw [hHlen]; omega]
  exact dataItems_getElem? rcs (fun p2 hp2 => (hbounds p2 hp2).1) hk hj

theorem count_of_WF {q : QCL} {hws : List Widget} {rcs : List (Nat × List Widget)}
    (hWF : WF q hws rcs) : q.grid.count = q.hdrLen + q.n * rcs.length := by
  obtain ⟨hitems, hhws, hbounds, _, _, _, _, _, _⟩ := hWF
  show q.grid.items.length = _
  rw [hitems, List.length_append, chunkItems_length, hhws,
    dataItems_length rcs (fun p2 hp2 => (hbounds p2 hp2).1)]

theorem findIdx?_wid_go : ∀ (l : List Item) (s i : Nat) (it : Item),
    (l.map (fun it2 => it2.w.wid)).Nodup → l[i]? = some it →
    l.findIdx? (fun it2 => it2.w.wid == it.w.wid) s = some (s + i) := by
  intro l
  induction l with
  | nil => intro s i it _ hi; simp at hi
  | cons a l ih =>
    intro s i it hnd hi
    cases i with
    | zero =>
      simp only [List.getElem?_cons_zero, Option.some_inj] at hi
      subst hi
      rw [List.findIdx?_cons]
      simp
    | succ i =>
      simp only [List.getElem?_cons_succ] at hi
      simp only [List.map_cons, List.nodup_cons] at hnd
      have hmem : it ∈ l := List.mem_iff_getElem?.mpr ⟨i, hi⟩
      have hne : (a.w.wid == it.w.wid) = false := by
        simp only [beq_eq_false_iff_ne, ne_eq]
        intro heq
        exact hnd.1 (heq ▸ List.mem_map_of_mem (fun it2 => it2.w.wid) hmem)
      rw [List.findIdx?_cons, hne]
      simp only [Bool.false_eq_true, if_false]
      rw [ih (s + 1) i it hnd.2 hi]
      congr 1
      omega

theorem findIdx?_wid_eq (l : List Item) (i : Nat) (it : Item)
    (hnd : (l.map (fun it2 => it2.w.wid)).Nodup) (hi : l[i]? = some it) :
    l.findIdx? (fun it2 => it2.w.wid == it.w.wid) = some i := by
  have := findIdx?_wid_go l 0 i it hnd hi
  simpa using this

theorem indexOf_of_WF {q : QCL} {hws : List Widget} {rcs : List (Nat × List Widget)}
    (hWF : WF q hws rcs) {k j : Nat} (hk : k < rcs.length) (hj : j < q.n) {w : Widget}
    (hw : (rcs.get ⟨k, hk⟩).2[j]? = some w) :
    q.grid.indexOf w.wid = ((q.hdrLen + q.n * k + j : Nat) : Int) := by
  have hit : q.grid.items[q.hdrLen + q.n * k + j]? =
      some ⟨w, (rcs.get ⟨k, hk⟩).1, j⟩ := by
    have h1 := itemAt_chunk_of_WF hWF hk hj
    rw [hw] at h1
    exact h1
  have hnd := hWF.2.2.2.2.2.1
  have h2 := findIdx?_wid_eq q.grid.items (q.hdrLen + q.n * k + j) ⟨w, (rcs.get ⟨k, hk⟩).1, j⟩
    hnd hit
  unfold Grid.indexOf
  rw [h2]

theorem chunkStart_div {n hI k j : Nat} (hn : 1 ≤ n) (hj : j < n) :
    ((n : Int) * pyDivTrunc ((n * hI + n * k + j : Nat) : Int) n).toNat = n * hI + n * k := by
  unfold pyDivTrunc
  rw [← Int.ofNat_tdiv]
  rw [show ((n : Int)) * (((n * hI + n * k + j) / n : Nat) : Int) =
    (((n * ((n * hI + n * k + j) / n) : Nat)) : Int) from by push_cast; ring]
  rw [Int.toNat_natCast]
  have hdiv : (n * hI + n * k + j) / n = hI + k := by
    rw [show n * hI + n * k + j = n * (hI + k) + j from by ring,
      Nat.mul_add_div (by omega), Nat.div_eq_of_lt hj, Nat.add_zero]
  rw [hdiv]
  ring

theorem mapM_option_range_exists {β : Type} :
    ∀ (cnt : Nat) (f : Nat → Option β), (∀ k, k < cnt → (f k).isSome) →
      ∃ l : List β, (List.range' 0 cnt 1).mapM f = some l := by
  intro cnt
  have hgen : ∀ (c s : Nat) (f : Nat → Option β), (∀ k, k < c → (f (s + k)).isSome) →
      ∃ l : List β, (List.range' s c 1).mapM f = some l := by
    intro c
    induction c with
    | zero => intro s f _; exact ⟨[], rfl⟩
    | succ c ih =>
      intro s f h
      obtain ⟨b, hb⟩ := Option.isSome_iff_exists.mp (by simpa using h 0 (by omega))
      obtain ⟨l, hl⟩ := ih (s + 1) f (fun k hk => by
        have := h (k + 1) (by omega)
        rwa [show s + (k + 1) = s + 1 + k from by omega] at this)
      refine ⟨b :: l, ?_⟩
      rw [List.range'_succ, List.mapM_cons, hb, hl]
      rfl
  intro f h
  exact hgen cnt 0 f (by simpa using h)

theorem getRowAt_ok {q0 q : QCL} {hws : List Widget} {rcs : List (Nat × List Widget)}
    (hWF : WF q0 hws rcs) (hobs : obsEq q0 q) {k : Nat} (hk : k < rcs.length) :
    ∃ row, getRowAt q.grid (q0.hdrLen + q0.n * k) q0.n = some row := by
  unfold getRowAt
  rw [List.range_eq_range']
  apply mapM_option_range_exists
  intro j hj
  have h0 := itemAt_chunk_of_WF hWF hk hj
  have hsh := itemAt_obs hobs (q0.hdrLen + q0.n * k + j)
  obtain ⟨w, hw⟩ : ∃ w, (rcs.get ⟨k, hk⟩).2[j]? = some w := by
    have hlen : (rcs.get ⟨k, hk⟩).2.length = q0.n :=
      (hWF.2.2.1 _ (List.getElem_mem hk)).1
    exact ⟨(rcs.get ⟨k, hk⟩).2.get ⟨j, by omega⟩, List.getElem?_eq_getElem (by omega)⟩
  rw [h0, hw] at hsh
  cases hq : q.grid.itemAt (q0.hdrLen + q0.n * k + j) with
  | none => rw [hq] at hsh; exact absurd hsh (by simp)
  | some it => simp [hq]


theorem hdrLen_obs {q q2 : QCL} (h : obsEq q q2) : q.hdrLen = q2.hdrLen := by
  simp [QCL.hdrLen, h.1, h.2.1]

theorem off_obs {q q2 : QCL} (h : obsEq q q2) : q.off = q2.off := by
  simp [QCL.off, QCL.headerInt, h.2.1]

theorem restyleRow_ok {q0 q : QCL} {hws : List Widget} {rcs : List (Nat × List Widget)}
    (hWF : WF q0 hws rcs) (hobs : obsEq q0 q) (vf : Vf) (sel : Bool) {k : Nat}
    (hk : k < rcs.length) :
    ∃ q2, restyleRow q vf (q0.hdrLen + q0.n * k) sel = .ok q2 ∧ obsEq q0 q2 := by
  obtain ⟨row, hrow⟩ := getRowAt_ok hWF hobs hk
  have hrow2 : getRowAt q.grid (q0.hdrLen + q0.n * k) q.n = some row := by
    rw [← hobs.1]; exact hrow
  cases hres : restyleRow q vf (q0.hdrLen + q0.n * k) sel with
  | error e =>
    unfold restyleRow at hres
    rw [hrow2] at hres
    simp at hres
  | ok q2 => exact ⟨q2, rfl, obsEq_trans hobs (restyleRow_obs hres)⟩

theorem unselectChunks_ok {q0 : QCL} {hws : List Widget} {rcs : List (Nat × List Widget)}
    (hWF : WF q0 hws rcs) (vf : Vf) :
    ∀ (is : List Nat) (q : QCL), obsEq q0 q →
      (∀ i ∈ is, ∃ k, k < rcs.length ∧ i = q0.hdrLen + q0.n * k) →
      ∃ q2, unselectChunks q vf is = .ok q2 ∧ obsEq q0 q2 := by
  intro is
  induction is with
  | nil => intro q hobs _; exact ⟨q, rfl, hobs⟩
  | cons i rest ih =>
    intro q hobs hmem
    obtain ⟨k, hk, hieq⟩ := hmem i (by simp)
    subst hieq
    obtain ⟨q1, hok, hobs1⟩ := restyleRow_ok hWF hobs vf false hk
    unfold unselectChunks
    rw [hok]
    exact ih q1 hobs1 (fun i2 hi2 => hmem i2 (by simp [hi2]))

theorem rangeStep_mem {a n m : Nat} (hn : 1 ≤ n) :
    ∀ i ∈ rangeStep a (a + n * m) n, ∃ k, k < m ∧ i = a + n * k := by
  intro i hi
  unfold rangeStep at hi
  obtain ⟨k, hkmem, hkeq⟩ := List.mem_map.mp hi
  have hcnt : (a + n * m - a + n - 1) / n = m := by
    rw [show a + n * m - a + n - 1 = n * m + (n - 1) from by omega,
      Nat.mul_add_div (by omega), Nat.div_eq_of_lt (by omega), Nat.add_zero]
  rw [hcnt] at hkmem
  exact ⟨k, List.mem_range.mp hkmem, by rw [← hkeq]; ring⟩

theorem widgetClicked_ok {q0 q : QCL} {hws : List Widget} {rcs : List (Nat × List Widget)}
    (hWF : WF q0 hws rcs) (hobs : obsEq q0 q) (vf : Vf) {k j : Nat} {w : Widget}
    (hk : k < rcs.length) (hj : j < q0.n) (hw : (rcs.get ⟨k, hk⟩).2[j]? = some w) :
    ∃ q2, widgetClicked q vf w.wid false = .ok q2 ∧ obsEq q0 q2 := by
  have hidx2 : ((q.n : Int) * pyDivTrunc (q.grid.indexOf w.wid) q.n).toNat =
      q0.hdrLen + q0.n * k := by
    rw [← indexOf_obs hobs, indexOf_of_WF hWF hk hj hw, ← hobs.1, hdrLen_eq q0]
    exact chunkStart_div hWF.2.2.2.2.2.2.1 hj
  have hrs : rangeStep q.hdrLen q.grid.count q.n =
      rangeStep q0.hdrLen (q0.hdrLen + q0.n * rcs.length) q0.n := by
    rw [← hdrLen_obs hobs, ← count_obs hobs, ← hobs.1, count_of_WF hWF]
  unfold widgetClicked
  dsimp only
  rw [hrs]
  obtain ⟨q1, hok1, hobs1⟩ := unselectChunks_ok hWF vf _ q hobs
    (rangeStep_mem hWF.2.2.2.2.2.2.1)
  rw [hok1]
  dsimp only
  rw [hidx2]
  obtain ⟨q2, hok2, hobs2⟩ := restyleRow_ok hWF hobs1 vf true hk
  rw [hok2]
  exact ⟨_, rfl, obsEq_trans hobs2 (selectRow_obs q2 _)⟩

theorem widgetInteracted_ok {q0 q : QCL} {hws : List Widget} {rcs : List (Nat × List Widget)}
    (hWF : WF q0 hws rcs) (hobs : obsEq q0 q) (vf : Vf) {k j : Nat} {w : Widget}
    (hk : k < rcs.length) (hj : j < q0.n) (hw : (rcs.get ⟨k, hk⟩).2[j]? = some w) :
    ∃ q2, widgetInteracted q vf w.wid = .ok q2 ∧ obsEq q0 q2 := by
  have hidx2 : ((q.n : Int) * pyDivTrunc (q.grid.indexOf w.wid) q.n).toNat =
      q0.hdrLen + q0.n * k := by
    rw [← indexOf_obs hobs, indexOf_of_WF hWF hk hj hw, ← hobs.1, hdrLen_eq q0]
    exact chunkStart_div hWF.2.2.2.2.2.2.1 hj
  have main : ∀ qc : QCL, obsEq q0 qc →
      ∃ q2, (match getRowAt qc.grid (q0.hdrLen + q0.n * k) qc.n with
        | none => Except.error PyErr.attributeError
        | some row3 =>
          Except.ok { qc with grid := row3.foldl (fun (g : Grid) (w2 : Widget) => g.setWidgetStyle w2.wid (StyleState.selected (vf qc.widgets row3))) qc.grid }) = .ok q2 ∧ obsEq q0 q2 := by
    intro qc hobsc
    obtain ⟨row3, hrow3⟩ := getRowAt_ok hWF hobsc hk
    have hrow3b : getRowAt qc.grid (q0.hdrLen + q0.n * k) qc.n = some row3 := by
      rw [← hobsc.1]; exact hrow3
    rw [hrow3b]
    refine ⟨_, rfl, ?_⟩
    obtain ⟨h1, h2, h3⟩ := foldl_setWidgetStyle_obs
      (fun w2 => StyleState.selected (vf qc.widgets row3)) row3 qc.grid
    exact obsEq_trans hobsc ⟨rfl, rfl, rfl, rfl, h3.symm, h2.symm, h1.symm⟩
  obtain ⟨row0, hrow0⟩ := getRowAt_ok hWF hobs hk
  have hrow0b : getRowAt q.grid ((q.n : Int) * pyDivTrunc (q.grid.indexOf w.wid) q.n).toNat
      q.n = some row0 := by
    rw [hidx2, ← hobs.1]; exact hrow0
  obtain ⟨q1, hok1, hobs1⟩ := widgetClicked_ok hWF hobs vf hk hj hw
  unfold widgetInteracted
  dsimp only
  rw [hrow0b, hok1]
  dsimp only
  rw [hidx2]
  by_cases c1 : (q1.onlyOneEmptyRow && !q1.anyEmptyRows) = true
  · rw [if_pos c1]
    have hobs1b : obsEq q0 ({ q1 with addEnabled := true } : QCL) :=
      obsEq_trans hobs1 ⟨rfl, rfl, rfl, rfl, rfl, rfl, rfl⟩
    by_cases c2 : (({ q1 with addEnabled := true } : QCL).onlyOneEmptyCell &&
        !({ q1 with addEnabled := true } : QCL).anyEmptyCell) = true
    · rw [if_pos c2]
      exact main _ (obsEq_trans hobs1b ⟨rfl, rfl, rfl, rfl, rfl, rfl, rfl⟩)
    · rw [if_neg c2]
      exact main _ hobs1b
  · rw [if_neg c1]
    by_cases c2 : (q1.onlyOneEmptyCell && !q1.anyEmptyCell) = true
    · rw [if_pos c2]
      exact main _ (obsEq_trans hobs1 ⟨rfl, rfl, rfl, rfl, rfl, rfl, rfl⟩)
    · rw [if_neg c2]
      exact main _ hobs1

theorem rowContentsAt_of_WF {q : QCL} {hws : List Widget} {rcs : List (Nat × List Widget)}
    (hWF : WF q hws rcs) {k : Nat} (hk : k < rcs.length) :
    rowContentsAt q (rcs.get ⟨k, hk⟩).1 =
      some ((rcs.get ⟨k, hk⟩).2.map (fun w => w.content)) := by
  have hmem : ((rcs.get ⟨k, hk⟩).1, (rcs.get ⟨k, hk⟩).2) ∈ rcs := by
    have := List.getElem_mem hk
    simpa using this
  have hlen : (rcs.get ⟨k, hk⟩).2.length = q.n := (hWF.2.2.1 _ hmem).1
  unfold rowContentsAt
  rw [List.range_eq_range']
  apply mapM_option_range' q.n 0 _ _ (by simpa using hlen)
  intro j hj
  rw [Nat.zero_add, itemAtPosition_eq_of_WF hWF hmem j, List.getElem?_map]
  cases h2 : (rcs.get ⟨k, hk⟩).2[j]? <;> simp

theorem pollCell_eq {q0 q : QCL} {hws : List Widget} {rcs : List (Nat × List Widget)}
    (hWF : WF q0 hws rcs) (hobs : obsEq q0 q) (vf : Vf)
    {k : Nat} (hk : k < rcs.length) {j : Nat} (hj : j < q0.n) :
    ∃ q2, pollCell q vf (rcs.get ⟨k, hk⟩).1 j =
      .ok (q2, pureCellEvents q0 (rcs.get ⟨k, hk⟩).1 j) ∧ obsEq q0 q2 := by
  have hmem : ((rcs.get ⟨k, hk⟩).1, (rcs.get ⟨k, hk⟩).2) ∈ rcs := by
    have := List.getElem_mem hk
    simpa using this
  have hlen : (rcs.get ⟨k, hk⟩).2.length = q0.n := (hWF.2.2.1 _ hmem).1
  obtain ⟨w, hw⟩ : ∃ w, (rcs.get ⟨k, hk⟩).2[j]? = some w :=
    ⟨(rcs.get ⟨k, hk⟩).2.get ⟨j, by omega⟩, List.getElem?_eq_getElem (by omega)⟩
  have hq0pos : q0.grid.itemAtPosition (rcs.get ⟨k, hk⟩).1 j =
      some ⟨w, (rcs.get ⟨k, hk⟩).1, j⟩ := by
    rw [itemAtPosition_eq_of_WF hWF hmem j, hw]
    rfl
  have hshape := itemAtPosition_obs hobs (rcs.get ⟨k, hk⟩).1 j
  rw [hq0pos] at hshape
  cases hqpos : q.grid.itemAtPosition (rcs.get ⟨k, hk⟩).1 j with
  | none => rw [hqpos] at hshape; exact absurd hshape (by simp)
  | some it2 =>
    rw [hqpos] at hshape
    simp only [Option.map_some', Option.some_inj] at hshape
    have hwid : it2.w.wid = w.wid := (congrArg (fun t => t.1) hshape).symm
    have hcontent : it2.w.content = w.content := (congrArg (fun t => t.2.1) hshape).symm
    have hsnap : q.snapshot = q0.snapshot := hobs.2.2.2.1.symm
    have hoffq : q.off = q0.off := (off_obs hobs).symm
    unfold pollCell pureCellEvents cellFires
    rw [hqpos, hq0pos, hsnap, hoffq]
    cases hpg1 : pyGet q0.snapshot (((rcs.get ⟨k, hk⟩).1 : Int) - (q0.off : Int)) with
    | none => exact ⟨q, by simp [hpg1], hobs⟩
    | some oldRow =>
      cases hpg2 : pyGet oldRow (j : Int) with
      | none => exact ⟨q, by simp [hpg1, hpg2], hobs⟩
      | some old =>
        by_cases heq : w.content = old
        · refine ⟨q, ?_, hobs⟩
          simp [hpg1, hpg2, hcontent, heq]
        · obtain ⟨q2, hok2, hobs2⟩ := widgetInteracted_ok hWF hobs vf hk hj hw
          have hokit : widgetInteracted q vf it2.w.wid = .ok q2 := by rw [hwid]; exact hok2
          have hcb2 : q2.hasCb = q0.hasCb := hobs2.2.2.1.symm
          cases hcb : q0.hasCb with
          | false =>
            refine ⟨q2, ?_, hobs2⟩
            rw [hcb] at hcb2
            simp [hpg1, hpg2, hcontent, heq, hokit, hcb2, hcb]
          | true =>
            rw [hcb] at hcb2
            have hrc : rowContentsAt q2 (rcs.get ⟨k, hk⟩).1 =
                some ((rcs.get ⟨k, hk⟩).2.map (fun w2 => w2.content)) := by
              rw [← rowContentsAt_obs hobs2, rowContentsAt_of_WF hWF hk]
            refine ⟨q2, ?_, hobs2⟩
            have hrc0 := rowContentsAt_of_WF hWF hk
            simp only [List.get_eq_getElem] at hrc hrc0
            simp [hpg1, hpg2, hcontent, heq, hokit, hcb2, hcb, hrc, hrc0]

theorem pollCells_eq {q0 : QCL} {hws : List Widget} {rcs : List (Nat × List Widget)}
    (hWF : WF q0 hws rcs) (vf : Vf) {k : Nat} (hk : k < rcs.length) :
    ∀ (js : List Nat) (q : QCL), obsEq q0 q → (∀ j ∈ js, j < q0.n) →
      ∃ q2, pollCells vf (rcs.get ⟨k, hk⟩).1 q js =
        .ok (q2, (js.map (pureCellEvents q0 (rcs.get ⟨k, hk⟩).1)).flatten) ∧ obsEq q0 q2 := by
  intro js
  induction js with
  | nil => intro q hobs _; exact ⟨q, rfl, hobs⟩
  | cons j rest ih =>
    intro q hobs hmem
    obtain ⟨q1, hok1, hobs1⟩ := pollCell_eq hWF hobs vf hk (hmem j (by simp))
    obtain ⟨q2, hok2, hobs2⟩ := ih q1 hobs1 (fun j2 hj2 => hmem j2 (by simp [hj2]))
    refine ⟨q2, ?_, hobs2⟩
    unfold pollCells
    simp only [List.get_eq_getElem] at hok1 hok2
    simp [hok1, hok2]

theorem pollRow_eq {q0 : QCL} {hws : List Widget} {rcs : List (Nat × List Widget)}
    (hWF : WF q0 hws rcs) (vf : Vf) {i : Nat} (hi : i < q0.grid.rowCount)
    (q : QCL) (hobs : obsEq q0 q) :
    ∃ q2, pollRow q vf i = .ok (q2, pureRowEvents q0 i) ∧ obsEq q0 q2 := by
  have hstretch : q.grid.stretch = q0.grid.stretch := hobs.2.2.2.2.2.1.symm
  unfold pollRow pureRowEvents
  rw [hstretch]
  by_cases hs : (q0.grid.stretch i != 0) = true
  · rw [hs]
    simp only [if_true]
    have hmem : i ∈ rcs.map Prod.fst := (hWF.2.2.2.2.1 i hi).mp (by simpa using hs)
    obtain ⟨idx, hidx⟩ := List.mem_iff_getElem?.mp hmem
    have hidxlen : idx < rcs.length := by
      by_contra hc
      rw [List.getElem?_eq_none (by simpa using hc)] at hidx
      exact Option.noConfusion hidx
    have hieq : (rcs.get ⟨idx, hidxlen⟩).1 = i := by
      rw [List.getElem?_map] at hidx
      rw [List.getElem?_eq_getElem hidxlen] at hidx
      simpa using hidx
    obtain ⟨q2, hok, hobs2⟩ := pollCells_eq hWF vf hidxlen (List.range q.n) q hobs
      (fun j hj => by rw [hobs.1]; exact List.mem_range.mp hj)
    rw [hieq] at hok
    rw [hok]
    refine ⟨q2, ?_, hobs2⟩
    rw [hobs.1]
  · rw [Bool.not_eq_true] at hs
    rw [hs]
    exact ⟨q, by simp, hobs⟩

theorem pollRows_eq {q0 : QCL} {hws : List Widget} {rcs : List (Nat × List Widget)}
    (hWF : WF q0 hws rcs) (vf : Vf) :
    ∀ (is : List Nat) (q : QCL), obsEq q0 q → (∀ i ∈ is, i < q0.grid.rowCount) →
      ∃ q2, pollRows vf q is = .ok (q2, (is.map (pureRowEvents q0)).flatten) ∧ obsEq q0 q2 := by
  intro is
  induction is with
  | nil => intro q hobs _; exact ⟨q, rfl, hobs⟩
  | cons i rest ih =>
    intro q hobs hmem
    obtain ⟨q1, hok1, hobs1⟩ := pollRow_eq hWF vf (hmem i (by simp)) q hobs
    obtain ⟨q2, hok2, hobs2⟩ := ih q1 hobs1 (fun i2 hi2 => hmem i2 (by simp [hi2]))
    refine ⟨q2, ?_, hobs2⟩
    unfold pollRows
    simp [hok1, hok2]

/-- Under well-formedness one poll run succeeds and invokes the callback
exactly as computed by `pureEvents` over the pre-poll state. -/
theorem checkModifiedWidgets_eq {q : QCL} {hws : List Widget} {rcs : List (Nat × List Widget)}
    (hWF : WF q hws rcs) (vf : Vf) :
    ∃ q2, checkModifiedWidgets q vf = .ok (q2, pureEvents q) := by
  obtain ⟨q2, hok, hobs⟩ := pollRows_eq hWF vf (List.range q.grid.rowCount) q (obsEq_refl q)
    (fun i hi => List.mem_range.mp hi)
  unfold checkModifiedWidgets
  rw [hok]
  exact ⟨_, rfl⟩

/-!  ### Well-formedness of the concrete states -/

theorem WF_qA : WF qA [] rcsA := by
  unfold WF
  exact ⟨by decide, by decide, by decide, by decide, by decide, by decide,
    by decide, by decide, by decide⟩

theorem WF_qASel : WF qASel [] rcsA := by
  unfold WF
  exact ⟨by decide, by decide, by decide, by decide, by decide, by decide,
    by decide, by decide, by decide⟩

theorem WF_qAEdited : WF qAEdited [] rcsA := by
  unfold WF
  exact ⟨by decide, by decide, by decide, by decide, by decide, by decide,
    by decide, by decide, by decide⟩

theorem WF_qCollide : WF qCollide [] rcsA := by
  unfold WF
  exact ⟨by decide, by decide, by decide, by decide, by decide, by decide,
    by decide, by decide, by decide⟩

/-!  ### The timer through the constructor -/

theorem initialFillStep_timer (vf : Vf) (q : QCL) (ws : List Widget) :
    (initialFillStep vf q ws).timer = q.timer := by
  unfold initialFillStep
  exact (addGridLayoutWidgets_fields q _ false).2.2.2.2.2.2.2.2.2.2.2.2.2

theorem foldl_fillStep_timer (vf : Vf) :
    ∀ (rows : List (List Widget)) (q : QCL),
      (rows.foldl (initialFillStep vf) q).timer = q.timer := by
  intro rows
  induction rows with
  | nil => intro q; rfl
  | cons r rest ih => intro q; rw [List.foldl_cons, ih, initialFillStep_timer]

theorem initialGridLayoutRows_timer (q : QCL) (vf : Vf)
    (ini : Option (List (List Widget))) :
    (initialGridLayoutRows q vf ini).timer = q.timer := by
  unfold initialGridLayoutRows
  cases ini with
  | none => rfl
  | some rows => exact foldl_fillStep_timer vf rows q

theorem qconfigInitCore_timer {a : InitArgs} {vf : Vf} {nv : Int}
    {rw : List FactorySpec} {q : QCL} (h : qconfigInitCore a vf nv rw = .ok q) :
    q.timer = ⟨100, true, true⟩ := by
  unfold qconfigInitCore at h
  dsimp only at h
  split at h
  · exact absurd h (by simp)
  · have hq : q = initialGridLayoutRows _ vf a.initial := (Except.ok.inj h).symm
    rw [hq, initialGridLayoutRows_timer]
    split
    · exact (addGridLayoutWidgets_fields _ _ true).2.2.2.2.2.2.2.2.2.2.2.2.2
    · rfl

/-!  ### Python list access under bounds -/

theorem pyGet_of_nonneg {α : Type} (l : List α) (i : Int) (h : 0 ≤ i) :
    pyGet l i = l[i.toNat]? := by
  unfold pyGet
  rw [if_pos h]

theorem pyGet_some_of_lt {α : Type} {l : List α} {i : Int} (h0 : 0 ≤ i)
    (h1 : i < (l.length : Int)) : ∃ x, pyGet l i = some x := by
  rw [pyGet_of_nonneg l i h0]
  have h2 : i.toNat < l.length := by omega
  exact ⟨l.get ⟨i.toNat, h2⟩, List.getElem?_eq_getElem h2⟩

/-!  ### The no_duplicates wrapper under in-range column numbers -/

theorem firstDupInRows_eq {n : Nat} {c : Int} (w : Widget)
    (hc : 1 ≤ c ∧ c ≤ (n : Int)) :
    ∀ (cur : List (List Widget)), (∀ row ∈ cur, row.length = n) →
      firstDupInRows c w cur = some (cur.any (fun row =>
        match pyGet row (c - 1) with
        | none => false
        | some w2 => (w.wid != w2.wid) && (w.content == w2.content))) := by
  intro cur
  induction cur with
  | nil => intro _; rfl
  | cons row rest ih =>
    intro hlen
    have hrow : row.length = n := hlen row (by simp)
    obtain ⟨w2, hw2⟩ := pyGet_some_of_lt (show (0 : Int) ≤ c - 1 by omega)
      (show c - 1 < (row.length : Int) by rw [hrow]; omega)
    unfold firstDupInRows
    rw [hw2]
    show (if w.wid ≠ w2.wid ∧ w.content = w2.content then some true
      else firstDupInRows c w rest) = _
    by_cases hdup : w.wid ≠ w2.wid ∧ w.content = w2.content
    · rw [if_pos hdup]
      have hb : ((w.wid != w2.wid) && (w.content == w2.content)) = true := by
        simp [hdup.1, hdup.2]
      simp [hw2, hb]
    · rw [if_neg hdup]
      have hb : ((w.wid != w2.wid) && (w.content == w2.content)) = false := by
        by_contra hcon
        rw [Bool.not_eq_false, Bool.and_eq_true, bne_iff_ne, beq_iff_eq] at hcon
        exact hdup hcon
      rw [ih (fun r hr => hlen r (by simp [hr]))]
      simp [hw2, hb]

theorem noDupScan_eq {n : Nat} (cur : List (List Widget)) (args : List Widget)
    (hargs : args.length = n) (hcur : ∀ row ∈ cur, row.length = n) :
    ∀ nd : List Int, (∀ c ∈ nd, 1 ≤ c ∧ c ≤ (n : Int)) →
      noDupScan cur args nd = some (!nd.any (fun c =>
        match pyGet args (c - 1) with
        | none => false
        | some w => cur.any (fun row =>
            match pyGet row (c - 1) with
            | none => false
            | some w2 => (w.wid != w2.wid) && (w.content == w2.content)))) := by
  intro nd
  induction nd with
  | nil => intro _; rfl
  | cons c cs ih =>
    intro hnd
    have hc := hnd c (by simp)
    obtain ⟨w, hw⟩ := pyGet_some_of_lt (show (0 : Int) ≤ c - 1 by omega)
      (show c - 1 < (args.length : Int) by rw [hargs]; omega)
    unfold noDupScan
    rw [hw]
    show (match firstDupInRows c w cur with
      | none => none
      | some true => some false
      | some false => noDupScan cur args cs) = _
    rw [firstDupInRows_eq w hc cur hcur]
    cases hb : cur.any (fun row =>
        match pyGet row (c - 1) with
        | none => false
        | some w2 => (w.wid != w2.wid) && (w.content == w2.content)) with
    | true => simp [hw, hb]
    | false =>
      rw [ih (fun c2 hc2 => hnd c2 (by simp [hc2]))]
      simp [hw, hb]

/-!  ### is_valid as a function of the recorded row styles -/

theorem matchesInvalid_flag {sd : StyleDict}
    (hc1 : (lowerStr sd.color == lowerStr sd.invalidColor) = false)
    (hc2 : (lowerStr sd.selectedBackgroundColor == lowerStr sd.invalidColor) = false)
    (s : StyleState) :
    ((!matchesInvalid sd s) = true ↔ styleFlag s ≠ some false) := by
  cases s with
  | unset => simp [matchesInvalid, styleFlag]
  | header => simp [matchesInvalid, styleFlag, hc1]
  | unselected v => cases v <;> simp [matchesInvalid, styleFlag, hc1]
  | selected v => cases v <;> simp [matchesInvalid, styleFlag, hc1, hc2]

theorem isValid_eq_of_WF {q : QCL} {hws : List Widget}
    {rcs : List (Nat × List Widget)} (hWF : WF q hws rcs) :
    q.isValid = rcs.all (fun p =>
      !matchesInvalid q.style ((p.2.headD ⟨0, r"", StyleState.unset⟩).style)) := by
  have hn : 1 ≤ q.n := hWF.2.2.2.2.2.2.1
  have hcount := count_of_WF hWF
  have hL : (q.grid.count - q.hdrLen + q.n - 1) / q.n = rcs.length := by
    rw [hcount]
    have h1 : q.hdrLen + q.n * rcs.length - q.hdrLen + q.n - 1 =
        q.n * rcs.length + (q.n - 1) := by omega
    rw [h1, Nat.mul_add_div (by omega), Nat.div_eq_of_lt (by omega)]
    omega
  have hcell : ∀ (k : Nat) (hk : k < rcs.length),
      (match q.grid.itemAt (q.hdrLen + k * q.n) with
        | some it => !matchesInvalid q.style it.w.style
        | none => true) =
      !matchesInvalid q.style
        (((rcs.get ⟨k, hk⟩).2.headD ⟨0, r"", StyleState.unset⟩).style) := by
    intro k hk
    have hidx : q.hdrLen + k * q.n = q.hdrLen + q.n * k + 0 := by ring
    rw [hidx, itemAt_chunk_of_WF hWF hk (by omega)]
    have hlen2 : (rcs.get ⟨k, hk⟩).2.length = q.n :=
      (hWF.2.2.1 _ (List.getElem_mem hk)).1
    cases hcs : (rcs.get ⟨k, hk⟩).2 with
    | nil => rw [hcs] at hlen2; simp at hlen2; omega
    | cons w ws2 => simp [hcs]
  unfold QCL.isValid rangeStep
  rw [hL, List.all_map, Bool.eq_iff_iff, List.all_eq_true, List.all_eq_true]
  constructor
  · intro h p hp
    obtain ⟨k, hk, hpk⟩ := List.mem_iff_getElem.mp hp
    have h2 := h k (List.mem_range.mpr hk)
    simp only [Function.comp] at h2
    rw [hcell k hk] at h2
    rw [← hpk]
    simpa using h2
  · intro h k hkm
    have hk := List.mem_range.mp hkm
    simp only [Function.comp]
    rw [hcell k hk]
    exact h _ (List.getElem_mem hk)

/-!  ### Claim theorems -/

/-- C1: with `n`, `header_texts` and `row_widgets` all left `None` — also
when `initial` is `[]`, one of the enumerated invalid arguments — the
constructor raises `TypeError` from evaluating `n > 1` with `n = None`
(source line 249), before the validation block, instead of the `ValueError`
the claim announces as the only error kind (and instead of the
docstring fallback `n = 2`). -/
theorem claim_C1_bug :
    qconfigInit argsEmptyInitial vfAlwaysTrue = .error .typeError ∧
    qconfigInit argsNone vfAlwaysTrue = .error .typeError :=
  ⟨rfl, rfl⟩

/-- C2 (amended): the poll compares the cell at grid row `i` with
`self._widgets_content[i - offset]`, the snapshot row indexed by the grid
coordinate; when both subscripts are in range and the contents differ, the
callback is invoked with `EDIT` and the current contents of the whole
row. -/
theorem claim_C2 {q : QCL} {hws : List Widget} {rcs : List (Nat × List Widget)}
    (hWF : WF q hws rcs) (vf : Vf) {k : Nat} (hk : k < rcs.length)
    {j : Nat} (hj : j < q.n) {w : Widget} (hw : (rcs.get ⟨k, hk⟩).2[j]? = some w)
    {oldRow : List String}
    (hpg1 : pyGet q.snapshot (((rcs.get ⟨k, hk⟩).1 : Int) - (q.off : Int)) = some oldRow)
    {old : String} (hpg2 : pyGet oldRow (j : Int) = some old)
    (hne : w.content ≠ old) (hcb : q.hasCb = true) :
    ∃ q2 evs, checkModifiedWidgets q vf = .ok (q2, evs) ∧
      (⟨.EDIT, (rcs.get ⟨k, hk⟩).2.map (fun w2 => w2.content)⟩ : Event) ∈ evs := by
  obtain ⟨q2, hok⟩ := checkModifiedWidgets_eq hWF vf
  refine ⟨q2, pureEvents q, hok, ?_⟩
  have hmem : ((rcs.get ⟨k, hk⟩).1, (rcs.get ⟨k, hk⟩).2) ∈ rcs := by
    have := List.getElem_mem hk
    simpa using this
  have hi : (rcs.get ⟨k, hk⟩).1 < q.grid.rowCount := (hWF.2.2.1 _ hmem).2.2
  have hstretch : q.grid.stretch (rcs.get ⟨k, hk⟩).1 ≠ 0 :=
    (hWF.2.2.2.2.1 _ hi).mpr (by
      refine List.mem_map.mpr ⟨_, hmem, rfl⟩)
  have hitem : q.grid.itemAtPosition (rcs.get ⟨k, hk⟩).1 j =
      some ⟨w, (rcs.get ⟨k, hk⟩).1, j⟩ := by
    rw [itemAtPosition_eq_of_WF hWF hmem j, hw]
    rfl
  have hfires : cellFires q (rcs.get ⟨k, hk⟩).1 j = true := by
    unfold cellFires
    simp only [hitem, hpg1, hpg2]
    simpa using hne
  have hcellev : pureCellEvents q (rcs.get ⟨k, hk⟩).1 j =
      [⟨.EDIT, (rcs.get ⟨k, hk⟩).2.map (fun w2 => w2.content)⟩] := by
    unfold pureCellEvents
    rw [hfires, hcb, rowContentsAt_of_WF hWF hk]
    rfl
  unfold pureEvents
  apply List.mem_flatten.mpr
  refine ⟨pureRowEvents q (rcs.get ⟨k, hk⟩).1,
    List.mem_map_of_mem _ (List.mem_range.mpr hi), ?_⟩
  unfold pureRowEvents
  rw [if_pos (by simpa using hstretch)]
  apply List.mem_flatten.mpr
  refine ⟨pureCellEvents q (rcs.get ⟨k, hk⟩).1 j,
    List.mem_map_of_mem _ (List.mem_range.mpr hj), ?_⟩
  rw [hcellev]
  simp

/-- C2 witness: in `qAEdited` (snapshot row 1 stale, grid row 2 holds
widget 11 with content `b` differing from the recorded `z`) the poll
succeeds and reports `EDIT` with the contents of the edited row. -/
theorem claim_C2_witness :
    ∃ q2 evs, checkModifiedWidgets qAEdited vfAlwaysTrue = .ok (q2, evs) ∧
      (⟨.EDIT, [r"b"]⟩ : Event) ∈ evs := by
  exact @claim_C2 qAEdited [] rcsA WF_qAEdited vfAlwaysTrue 1 (by decide) 0
    (by decide) ⟨11, r"b", StyleState.unselected true⟩ (by decide)
    [r"z"] (by decide) (r"z") (by decide) (by decide) (by decide)

/-- C2 counterexample: `qHole` is a well-formed state (reached by removing
the first of two rows, letting one poll resynchronize the snapshot, then
editing the remaining cell from `b` to `x`).  Its only data row has current
content `x` while the content recorded at the previous poll is `b` and a
callback is supplied, yet the poll emits no events: the snapshot is indexed
by grid row (2 - 1 = 1, out of range for the one-row snapshot), not by the
position of the row among the remaining rows. -/
theorem claim_C2_counterexample :
    WF qHole [] [(2, [⟨11, r"x", StyleState.unselected true⟩])] ∧
    qHole.hasCb = true ∧
    qHole.widgetsContent = [[r"x"]] ∧
    qHole.snapshot = [[r"b"]] ∧
    Except.map Prod.snd (checkModifiedWidgets qHole vfAlwaysTrue) = .ok [] := by
  refine ⟨?_, rfl, by decide, rfl, rfl⟩
  unfold WF
  exact ⟨by decide, by decide, by decide, by decide, by decide, by decide,
    by decide, by decide, by decide⟩

/-- C3: activating the add control on a well-formed widget with a callback
appends exactly one row made of the `n` freshly produced widgets in column
order (styled with the row validity), and invokes the callback with `ADD`
and the new contents. -/
theorem claim_C3 {q : QCL} {hws : List Widget} {rcs : List (Nat × List Widget)}
    (hWF : WF q hws rcs) (vf : Vf) (newWs : List Widget)
    (hlen : newWs.length = q.n) (hcb : q.hasCb = true)
    (hfresh : (q.grid.items.map (fun it => it.w.wid) ++
      newWs.map (fun w => w.wid)).Nodup) :
    ∃ q2, addGridLayoutRow q vf newWs =
        .ok (q2, [⟨.ADD, newWs.map (fun w => w.content)⟩]) ∧
      q2.widgets = q.widgets ++
        [newWs.map (fun w => { w with style := StyleState.unselected (vf q.widgets newWs) })] ∧
      (newWs.map (fun w => { w with style := StyleState.unselected (vf q.widgets newWs) })).length = q.n := by
  obtain ⟨q2, hok, hWF2, hwid⟩ := addGridLayoutRow_eq hWF vf newWs hlen hcb hfresh
  exact ⟨q2, hok, hwid, by rw [List.length_map, hlen]⟩

/-- C3 witness: adding a fresh widget with content `c` to `qA`. -/
theorem claim_C3_witness :
    ∃ q2, addGridLayoutRow qA vfAlwaysTrue [⟨12, r"c", StyleState.unset⟩] =
        .ok (q2, [⟨.ADD, [r"c"]⟩]) ∧
      q2.widgets = qA.widgets ++ [[⟨12, r"c", StyleState.unselected true⟩]] ∧
      ([(⟨12, r"c", StyleState.unset⟩ : Widget)].map
        (fun w => { w with style := StyleState.unselected true })).length = qA.n := by
  exact @claim_C3 qA [] rcsA WF_qA vfAlwaysTrue [⟨12, r"c", StyleState.unset⟩]
    (by decide) (by decide) (by decide)

/-- C4: with data row `k` selected on a well-formed widget with a callback,
the remove control removes exactly that row, invokes the callback with
`REMOVE` and the removed contents, unselects and disables the remove
button. -/
theorem claim_C4 {q : QCL} {hws : List Widget} {rcs : List (Nat × List Widget)}
    {k : Nat} (hWF : WF q hws rcs) (hk : k < rcs.length)
    (hsel : q.selectedRow = ((q.headerInt + k : Nat) : Int)) (hcb : q.hasCb = true) :
    ∃ q2, removeSelectedRow q =
        .ok (q2, [⟨.REMOVE, (rcs.get ⟨k, hk⟩).2.map (fun w => w.content)⟩]) ∧
      q2.selectedRow = -1 ∧ q2.removeEnabled = false ∧
      q2.grid.count = q.grid.count - q.n ∧
      q2.widgets = q.widgets.eraseIdx k := by
  obtain ⟨q2, hok, h1, h2, h3, _, h5⟩ := removeSelectedRow_eq hWF hk hsel hcb
  exact ⟨q2, hok, h1, h2, h3, h5⟩

/-- C4 witness: removing the selected first row of `qASel`. -/
theorem claim_C4_witness :
    ∃ q2, removeSelectedRow qASel = .ok (q2, [⟨.REMOVE, [r"a"]⟩]) ∧
      q2.selectedRow = -1 ∧ q2.removeEnabled = false ∧
      q2.grid.count = qASel.grid.count - qASel.n ∧
      q2.widgets = qASel.widgets.eraseIdx 0 := by
  exact @claim_C4 qASel [] rcsA 0 WF_qASel (by decide) (by decide) (by decide)

/-- C5 (amended): when neither the normal text color nor the selected
background color collides with the invalid color (up to ASCII case),
`is_valid` is `True` exactly when no data row was last styled with the
validity flag `False` — the flag recorded for the first widget of each row.
With a colliding style the property fails (see the counterexample). -/
theorem claim_C5 {q : QCL} {hws : List Widget} {rcs : List (Nat × List Widget)}
    (hWF : WF q hws rcs)
    (hc1 : (lowerStr q.style.color == lowerStr q.style.invalidColor) = false)
    (hc2 : (lowerStr q.style.selectedBackgroundColor == lowerStr q.style.invalidColor) = false) :
    (q.isValid = true ↔
      ∀ p ∈ rcs, styleFlag ((p.2.headD ⟨0, r"", StyleState.unset⟩).style) ≠ some false) := by
  rw [isValid_eq_of_WF hWF, List.all_eq_true]
  constructor
  · intro h p hp
    exact (matchesInvalid_flag hc1 hc2 _).mp (h p hp)
  · intro h p hp
    exact (matchesInvalid_flag hc1 hc2 _).mpr (h p hp)

/-- C5 witness: on `qA`, whose default style has no color collision,
`is_valid` agrees with the recorded row validity flags. -/
theorem claim_C5_witness :
    (qA.isValid = true ↔
      ∀ p ∈ rcsA, styleFlag ((p.2.headD ⟨0, r"", StyleState.unset⟩).style) ≠ some false) := by
  exact @claim_C5 qA [] rcsA WF_qA (by decide) (by decide)

/-- C5 counterexample: `qCollide` is `qA` with the legal style argument
whose normal text color `#FF0000` equals the invalid color.  Every widget
was last styled with validity flag `True`, yet `is_valid` is `False`: the
regex from line 334 matches the normal `color: #FF0000;` fragment of a
valid stylesheet. -/
theorem claim_C5_counterexample :
    qCollide.grid.items.all (fun it => styleFlag it.w.style == some true) = true ∧
    qCollide.isValid = false := by
  exact ⟨by decide, by decide⟩

/-- C6: `widgets_content` is the pointwise application of the content
function to `widgets`: equal as a map, same number of rows, and cell
`(i, j)` of `widgets_content` is the content of widget `(i, j)` of
`widgets`. -/
theorem claim_C6 (q : QCL) :
    q.widgetsContent = q.widgets.map (fun row => row.map (fun w => w.content)) ∧
    q.widgetsContent.length = q.widgets.length ∧
    ∀ i j : Nat, (q.widgetsContent[i]?.bind (fun row => row[j]?)) =
      ((q.widgets[i]?.bind (fun row => row[j]?)).map (fun w => w.content)) := by
  refine ⟨rfl, by simp [QCL.widgetsContent], ?_⟩
  intro i j
  simp only [QCL.widgetsContent, List.getElem?_map]
  cases h : q.widgets[i]? with
  | none => simp
  | some row => simp

/-- C7: every successful construction starts the poll timer with a 100 ms
interval, connected to `_check_modified_widgets`; `closeEvent` stops that
timer and changes nothing else about it. -/
theorem claim_C7 :
    (∀ (a : InitArgs) (vf : Vf) (q : QCL), qconfigInit a vf = .ok q →
      q.timer = ⟨100, true, true⟩) ∧
    (∀ q : QCL, (closeEvent q).timer = { q.timer with active := false }) := by
  constructor
  · intro a vf q h
    unfold qconfigInit at h
    dsimp only at h
    split at h
    · exact absurd h (by simp)
    · split at h
      · exact qconfigInitCore_timer h
      · exact qconfigInitCore_timer h
  · intro q
    rfl

/-- C7 witness: `QConfigList(n=1)` constructs successfully and its timer is
started at 100 ms, connected and active. -/
theorem claim_C7_witness :
    qconfigInit argsN1 vfAlwaysTrue = .ok qN1 ∧ qN1.timer = ⟨100, true, true⟩ :=
  ⟨rfl, claim_C7.1 argsN1 vfAlwaysTrue qN1 rfl⟩

/-- C8: the grid-changing operations preserve the row-shape invariant:
one initial-fill iteration and the add control extend the chunk list by one
`n`-widget row, the remove control erases the selected chunk, and on every
well-formed state each row of the `widgets` property has exactly `n`
cells. -/
theorem claim_C8 :
    (∀ (q : QCL) (hws ws : List Widget) (rcs : List (Nat × List Widget)) (vf : Vf),
      WF q hws rcs → ws.length = q.n →
      (q.grid.items.map (fun it => it.w.wid) ++ ws.map (fun w => w.wid)).Nodup →
      WF (initialFillStep vf q ws) hws (rcs ++ [(q.grid.rowCount,
        ws.map (fun w => { w with style := StyleState.unselected (vf q.widgets ws) }))])) ∧
    (∀ (q : QCL) (hws newWs : List Widget) (rcs : List (Nat × List Widget)) (vf : Vf),
      WF q hws rcs → newWs.length = q.n → q.hasCb = true →
      (q.grid.items.map (fun it => it.w.wid) ++ newWs.map (fun w => w.wid)).Nodup →
      ∃ q2 evs, addGridLayoutRow q vf newWs = .ok (q2, evs) ∧
        WF q2 hws (rcs ++ [(q.grid.rowCount,
          newWs.map (fun w => { w with style := StyleState.unselected (vf q.widgets newWs) }))])) ∧
    (∀ (q : QCL) (hws : List Widget) (rcs : List (Nat × List Widget)) (k : Nat),
      WF q hws rcs → ∀ hk : k < rcs.length,
      q.selectedRow = ((q.headerInt + k : Nat) : Int) → q.hasCb = true →
      ∃ q2 evs, removeSelectedRow q = .ok (q2, evs) ∧ WF q2 hws (rcs.eraseIdx k)) ∧
    (∀ (q : QCL) (hws : List Widget) (rcs : List (Nat × List Widget)),
      WF q hws rcs → q.widgets.all (fun row => row.length == q.n) = true) := by
  refine ⟨?_, ?_, ?_, ?_⟩
  · intro q hws ws rcs vf hWF hlen hfresh
    unfold initialFillStep
    apply WF_addGridLayoutWidgets hWF
    · rw [List.length_map, hlen]
    · rw [List.map_map]
      exact hfresh
  · intro q hws newWs rcs vf hWF hlen hcb hfresh
    obtain ⟨q2, hok, hWF2, _⟩ := addGridLayoutRow_eq hWF vf newWs hlen hcb hfresh
    exact ⟨q2, _, hok, hWF2⟩
  · intro q hws rcs k hWF hk hsel hcb
    obtain ⟨q2, hok, _, _, _, hWF2, _⟩ := removeSelectedRow_eq hWF hk hsel hcb
    exact ⟨q2, _, hok, hWF2⟩
  · intro q hws rcs hWF
    rw [List.all_eq_true]
    intro row hrow
    rw [beq_iff_eq]
    exact widgets_row_length_of_WF hWF row hrow

/-- C8 witness: the remove branch of C8 at the concrete selected state
`qASel` produces a well-formed one-row state. -/
theorem claim_C8_witness :
    ∃ q2 evs, removeSelectedRow qASel = .ok (q2, evs) ∧
      WF q2 [] (rcsA.eraseIdx 0) := by
  exact claim_C8.2.2.1 qASel [] rcsA 0 WF_qASel (by decide) (by decide) (by decide)

/-- C9: with no row selected (`selected_row == -1`) the remove handler
returns at once: no callback invocation and a state identical to the
input. -/
theorem claim_C9 (q : QCL) (h : q.selectedRow = -1) :
    removeSelectedRow q = .ok (q, []) := by
  unfold removeSelectedRow
  rw [if_pos h]

/-- C9 witness: the unselected state `qA`. -/
theorem claim_C9_witness : removeSelectedRow qA = .ok (qA, []) :=
  claim_C9 qA (by decide)

/-- C10: with every listed column number between 1 and `n`, the wrapped
validity function returns `False` exactly when some listed column holds,
in some current row, a different widget with the same content as the
row under validation, and otherwise falls back to the user-supplied
predicate. -/
theorem claim_C10 (nd : List Int) (uvf : List Widget → Bool)
    (cur : List (List Widget)) (args : List Widget) (n : Nat)
    (hargs : args.length = n) (hcur : ∀ row ∈ cur, row.length = n)
    (hnd : ∀ c ∈ nd, 1 ≤ c ∧ c ≤ (n : Int)) :
    noDupValidity nd uvf cur args =
      some (if nd.any (fun c =>
          match pyGet args (c - 1) with
          | none => false
          | some w => cur.any (fun row =>
              match pyGet row (c - 1) with
              | none => false
              | some w2 => (w.wid != w2.wid) && (w.content == w2.content)))
        then false else uvf args) := by
  unfold noDupValidity
  rw [noDupScan_eq cur args hargs hcur nd hnd]
  cases hb : nd.any (fun c =>
      match pyGet args (c - 1) with
      | none => false
      | some w => cur.any (fun row =>
          match pyGet row (c - 1) with
          | none => false
          | some w2 => (w.wid != w2.wid) && (w.content == w2.content))) with
  | true => rfl
  | false => rfl

/-- C10 witness: column 1 of a one-column widget holds `a` in an existing
row; validating a different widget with the same content yields `False`
although the user predicate accepts everything. -/
theorem claim_C10_witness :
    noDupValidity [1] (fun _ => true) [[⟨10, r"a", StyleState.unset⟩]]
      [⟨11, r"a", StyleState.unset⟩] =
    some (if [(1 : Int)].any (fun c =>
        match pyGet [(⟨11, r"a", StyleState.unset⟩ : Widget)] (c - 1) with
        | none => false
        | some w => [[(⟨10, r"a", StyleState.unset⟩ : Widget)]].any (fun row =>
            match pyGet row (c - 1) with
            | none => false
            | some w2 => (w.wid != w2.wid) && (w.content == w2.content)))
      then false else (fun _ => true) [(⟨11, r"a", StyleState.unset⟩ : Widget)]) := by
  exact claim_C10 [1] (fun _ => true) [[⟨10, r"a", StyleState.unset⟩]]
    [⟨11, r"a", StyleState.unset⟩] 1 (by decide) (by decide) (by decide)

end QCfg
